import Mathlib

/-!
# pg_backup: dump, compress, upload pipeline

A shallow embedding of `backup.go`, `main.go`, `s3.go` and `internal/config/config.go`.

* Go strings are byte sequences; a byte is represented by its numeric value.
* Every call that leaves the process (file system, `pg_dump`, S3, clock, environment parsing)
  takes its outcome from an `Env` record and is recorded, in program order, in a list of
  `Event`s. A deferred call is recorded where it runs, at the return of its function.
  State predicates (file on disk, open handles) are replayed from that list.
* Functions of the Go standard library that decide a property (`strings.Index`,
  `strings.TrimSpace`, `time.Time.Format`) are modelled after the library's algorithm.

The definitions come first, the theorems after them.
-/

namespace PgBackup

/-! ## Go strings -/

/-- A byte, represented by its value (`0 .. 255`). -/
abbrev Byte := Nat

/-- A Go `string`: an immutable sequence of bytes. -/
abbrev GoString := List Byte

/-- The bytes of an ASCII string literal of the source. -/
def ascii (s : String) : GoString := s.toList.map Char.toNat

/-- Scan of `strings.Index`: `i` is the offset of the remaining text in the original string. -/
def strings.indexFrom (substr : GoString) : GoString → Nat → Int
  | [], i => if substr = [] then (i : Int) else -1
  | c :: rest, i =>
    if substr.isPrefixOf (c :: rest) then (i : Int)
    else strings.indexFrom substr rest (i + 1)

/-- Go `strings.Index(s, substr)`: the index of the first instance of `substr` in `s`,
or `-1` if `substr` is not present in `s`. -/
def strings.Index (s substr : GoString) : Int := strings.indexFrom substr s 0

/-- A Go `error` value, identified by its message. -/
structure Error where
  msg : GoString
deriving DecidableEq, Repr

deriving instance DecidableEq for Except

/-- Go `errors.New(text)`. -/
def errors.New (text : GoString) : Error := ⟨text⟩

/-- Go `fmt.Errorf(format)` for a format without verbs. -/
def fmt.Errorf (format : GoString) : Error := ⟨format⟩

/-- The constant `errorSearchText` of `getPgDumpError`. -/
def errorSearchText : GoString := ascii "pg_dump: error:"

/-- The function `getPgDumpError` of `backup.go`: looks for the error text and returns the
input from there on; if no error text is found, the original string is returned. -/
def getPgDumpError (stderr : GoString) : Error :=
  let index := strings.Index stderr errorSearchText
  if index ≠ -1 then
    errors.New (stderr.drop index.toNat)
  else
    errors.New stderr

/-! ## UTF-8 decoding and `strings.TrimSpace` -/

/-- Go `utf8.RuneSelf`: bytes below it are single-byte runes. -/
def utf8.RuneSelf : Nat := 0x80

/-- Go `utf8.RuneError`, the replacement character. -/
def utf8.RuneError : Nat := 0xFFFD

/-- Go `utf8.UTFMax`: the longest encoding of a rune, in bytes. -/
def utf8.UTFMax : Nat := 4

/-- The table `first` of package `utf8`: information about the first byte of an encoding.
`0xF0` is ASCII, `0xF1` is invalid, otherwise the low three bits hold the size and the high
four bits the index of the accept range of the second byte. -/
def utf8.first (b : Byte) : Nat :=
  if b < 0x80 then 0xF0
  else if b < 0xC2 then 0xF1
  else if b < 0xE0 then 0x02
  else if b = 0xE0 then 0x13
  else if b < 0xED then 0x03
  else if b = 0xED then 0x23
  else if b < 0xF0 then 0x03
  else if b = 0xF0 then 0x34
  else if b < 0xF4 then 0x04
  else if b = 0xF4 then 0x44
  else 0xF1

/-- The table `acceptRanges` of package `utf8`: lowest and highest admissible second byte. -/
def utf8.acceptRanges (i : Nat) : Nat × Nat :=
  match i with
  | 0 => (0x80, 0xBF)
  | 1 => (0xA0, 0xBF)
  | 2 => (0x80, 0x9F)
  | 3 => (0x90, 0xBF)
  | 4 => (0x80, 0x8F)
  | _ => (0, 0)

/-- Go `utf8.DecodeRuneInString(s)`: the first rune of `s` and its width in bytes;
`(RuneError, 0)` for the empty string and `(RuneError, 1)` for an invalid encoding. -/
def utf8.DecodeRuneInString (s : GoString) : Nat × Nat :=
  let n := s.length
  if n < 1 then (utf8.RuneError, 0) else
  let s0 := s.getD 0 0
  let x := utf8.first s0
  if x ≥ 0xF0 then
    -- the mask of the source is all ones exactly when `x` is the invalid marker `0xF1`
    (if x % 2 = 1 then utf8.RuneError else s0, 1)
  else
  let sz := x &&& 7
  let accept := utf8.acceptRanges (x >>> 4)
  if n < sz then (utf8.RuneError, 1) else
  let s1 := s.getD 1 0
  if s1 < accept.1 ∨ accept.2 < s1 then (utf8.RuneError, 1) else
  if sz ≤ 2 then (((s0 &&& 0x1F) <<< 6) ||| (s1 &&& 0x3F), 2) else
  let s2 := s.getD 2 0
  if s2 < 0x80 ∨ 0xBF < s2 then (utf8.RuneError, 1) else
  if sz ≤ 3 then (((s0 &&& 0x0F) <<< 12) ||| ((s1 &&& 0x3F) <<< 6) ||| (s2 &&& 0x3F), 3) else
  let s3 := s.getD 3 0
  if s3 < 0x80 ∨ 0xBF < s3 then (utf8.RuneError, 1) else
  (((s0 &&& 0x07) <<< 18) ||| ((s1 &&& 0x3F) <<< 12) ||| ((s2 &&& 0x3F) <<< 6) ||| (s3 &&& 0x3F), 4)

/-- Go `utf8.RuneStart(b)`: whether the byte could be the first byte of an encoded rune. -/
def utf8.RuneStart (b : Byte) : Bool := decide (b &&& 0xC0 ≠ 0x80)

/-- Backward scan of `DecodeLastRuneInString`: the candidates `lim + k - 1, ..., lim` are tried
downwards and the first rune start is returned; `lim - 1` when there is none. -/
def utf8.scanBack (s : GoString) (lim : Nat) : Nat → Int
  | 0 => (lim : Int) - 1
  | k + 1 => if utf8.RuneStart (s.getD (lim + k) 0) then ((lim + k : Nat) : Int)
             else utf8.scanBack s lim k

/-- Go `utf8.DecodeLastRuneInString(s)`: the last rune of `s` and its width in bytes. -/
def utf8.DecodeLastRuneInString (s : GoString) : Nat × Nat :=
  let stop := s.length
  if stop = 0 then (utf8.RuneError, 0) else
  let r := s.getD (stop - 1) 0
  if r < utf8.RuneSelf then (r, 1) else
  let lim := stop - utf8.UTFMax
  let start := utf8.scanBack s lim (stop - 1 - lim)
  let start := if start < 0 then 0 else start.toNat
  let (r, size) := utf8.DecodeRuneInString (s.drop start)
  if start + size ≠ stop then (utf8.RuneError, 1) else (r, size)

/-- Go `unicode.IsSpace(r)`: the Latin-1 spaces and the code points of the Unicode
property White_Space. -/
def unicode.IsSpace (r : Nat) : Bool :=
  if r ≤ 0xFF then
    decide (r = 0x09 ∨ r = 0x0A ∨ r = 0x0B ∨ r = 0x0C ∨ r = 0x0D ∨ r = 0x20 ∨ r = 0x85 ∨ r = 0xA0)
  else
    decide (r = 0x1680 ∨ (0x2000 ≤ r ∧ r ≤ 0x200A) ∨ r = 0x2028 ∨ r = 0x2029 ∨ r = 0x202F
      ∨ r = 0x205F ∨ r = 0x3000)

/-- The table `asciiSpace` of package `strings`. -/
def strings.asciiSpace (c : Byte) : Nat :=
  if c = 0x09 ∨ c = 0x0A ∨ c = 0x0B ∨ c = 0x0C ∨ c = 0x0D ∨ c = 0x20 then 1 else 0

/-- Loop of `strings.indexFunc`: `for i, r := range s`. `skip` counts the bytes of the current
rune that are still to be passed, `i` is the offset of the remaining text. -/
def strings.indexFuncFrom (f : Nat → Bool) (truth : Bool) : GoString → Nat → Nat → Int
  | [], _, _ => -1
  | c :: rest, 0, i =>
    let (r, size) := utf8.DecodeRuneInString (c :: rest)
    if f r = truth then (i : Int) else strings.indexFuncFrom f truth rest (size - 1) (i + 1)
  | _ :: rest, k + 1, i => strings.indexFuncFrom f truth rest k (i + 1)

/-- Go `strings.indexFunc(s, f, truth)`: the index of the first rune with `f(r) == truth`. -/
def strings.indexFunc (s : GoString) (f : Nat → Bool) (truth : Bool) : Int :=
  strings.indexFuncFrom f truth s 0 0

/-- Loop of `strings.lastIndexFunc`, on the reversed text: the runes are decoded from the end
with `DecodeLastRuneInString`; `skip` counts the bytes of the current rune still to be passed. -/
def strings.lastIndexFuncFrom (f : Nat → Bool) (truth : Bool) : GoString → Nat → Int
  | [], _ => -1
  | c :: rest, 0 =>
    let (r, size) := utf8.DecodeLastRuneInString (c :: rest).reverse
    if f r = truth then (((c :: rest).length - size : Nat) : Int)
    else strings.lastIndexFuncFrom f truth rest (size - 1)
  | _ :: rest, k + 1 => strings.lastIndexFuncFrom f truth rest k

/-- Go `strings.lastIndexFunc(s, f, truth)`: the index of the last rune with `f(r) == truth`. -/
def strings.lastIndexFunc (s : GoString) (f : Nat → Bool) (truth : Bool) : Int :=
  strings.lastIndexFuncFrom f truth s.reverse 0

/-- Go `strings.TrimLeftFunc(s, f)`. -/
def strings.TrimLeftFunc (s : GoString) (f : Nat → Bool) : GoString :=
  let i := strings.indexFunc s f false
  if i = -1 then [] else s.drop i.toNat

/-- Go `strings.TrimRightFunc(s, f)`. -/
def strings.TrimRightFunc (s : GoString) (f : Nat → Bool) : GoString :=
  let i := strings.lastIndexFunc s f false
  if i ≥ 0 ∧ s.getD i.toNat 0 ≥ utf8.RuneSelf then
    let wid := (utf8.DecodeRuneInString (s.drop i.toNat)).2
    s.take (i.toNat + wid)
  else
    s.take (i + 1).toNat

/-- Go `strings.TrimFunc(s, f)`. -/
def strings.TrimFunc (s : GoString) (f : Nat → Bool) : GoString :=
  strings.TrimRightFunc (strings.TrimLeftFunc s f) f

/-- Second loop of `strings.TrimSpace`, on the reversed text `s[start:stop]`. -/
def strings.trimSpaceStop : GoString → GoString
  | [] => []
  | c :: rest =>
    if c ≥ utf8.RuneSelf then strings.TrimRightFunc (c :: rest).reverse unicode.IsSpace
    else if strings.asciiSpace c = 0 then (c :: rest).reverse
    else strings.trimSpaceStop rest

/-- Go `strings.TrimSpace(s)`: `s` with all leading and trailing white space removed, as
defined by Unicode. The first loop looks for the first ASCII non-space byte and falls back to
`TrimFunc` at a non-ASCII byte; the second loop does the same from the end. -/
def strings.TrimSpace : GoString → GoString
  | [] => strings.trimSpaceStop []
  | c :: rest =>
    if c ≥ utf8.RuneSelf then strings.TrimFunc (c :: rest) unicode.IsSpace
    else if strings.asciiSpace c = 0 then strings.trimSpaceStop (c :: rest).reverse
    else strings.TrimSpace rest

/-! ## `time.Time.Format` -/

/-- The byte of an ASCII character. -/
def byte (c : Char) : Byte := c.toNat

/-- A `time.Time` in the UTC location (the receiver of `Format` in `dumpToFile` is
`time.Now().UTC()`), given by the values of its accessors `Year()`, `Month()` (1 is January),
`Day()`, `Hour()`, `Minute()`, `Second()`, `Nanosecond()`, `Weekday()` (0 is Sunday) and
`YearDay()`. Its zone abbreviation is `UTC` and its offset is zero. -/
structure Time where
  year : Int
  month : Nat
  day : Nat
  hour : Nat
  minute : Nat
  second : Nat
  nanosecond : Nat
  weekday : Nat
  yday : Nat
deriving DecidableEq, Repr

/-- The layout elements of package `time` (the constants `stdLongMonth`, ... of `format.go`).
A fractional-second element carries its number of digits and its separator. -/
inductive Std where
  | stdLongMonth | stdMonth | stdNumMonth | stdZeroMonth
  | stdLongWeekDay | stdWeekDay
  | stdDay | stdUnderDay | stdZeroDay | stdUnderYearDay | stdZeroYearDay
  | stdHour | stdHour12 | stdZeroHour12
  | stdMinute | stdZeroMinute | stdSecond | stdZeroSecond
  | stdLongYear | stdYear
  | stdPM | stdpm
  | stdTZ
  | stdISO8601TZ | stdISO8601SecondsTZ | stdISO8601ShortTZ | stdISO8601ColonTZ
  | stdISO8601ColonSecondsTZ
  | stdNumTZ | stdNumSecondsTz | stdNumShortTZ | stdNumColonTZ | stdNumColonSecondsTZ
  | stdFracSecond0 (digits : Nat) (sep : Byte)
  | stdFracSecond9 (digits : Nat) (sep : Byte)
deriving DecidableEq, Repr

/-- The test `len(layout) >= i+k && layout[i:i+k] == lit` of `nextStdChunk`, on the remaining
layout `l = layout[i:]`. -/
def layoutHas (l : GoString) (lit : String) : Bool := (ascii lit).isPrefixOf l

/-- Go `time.startsWithLowerCase(str)`. -/
def startsWithLowerCase (str : GoString) : Bool :=
  match str with
  | [] => false
  | c :: _ => decide (byte 'a' ≤ c ∧ c ≤ byte 'z')

/-- Go `time.isDigit(s, i)`. -/
def isDigit (s : GoString) (i : Nat) : Bool :=
  if s.length ≤ i then false
  else decide (byte '0' ≤ s.getD i 0 ∧ s.getD i 0 ≤ byte '9')

/-- The table `std0x` of package `time`: the elements `01` to `06`. -/
def std0x (i : Nat) : Std :=
  match i with
  | 0 => .stdZeroMonth
  | 1 => .stdZeroDay
  | 2 => .stdZeroHour12
  | 3 => .stdZeroMinute
  | 4 => .stdZeroSecond
  | _ => .stdYear

/-- The switch of `nextStdChunk` at one position of the layout, on `l = layout[i:]`: when a
layout element is recognised there, the literal text that still belongs to the leading text
(only for `_2006`, which is a literal `_` followed by the long year), the element, and the
number `k` of bytes after which the rest of the layout starts (`layout[i+k:]`). -/
def stdChunkAt (l : GoString) : Option (GoString × Std × Nat) :=
  match l with
  | [] => none
  | c :: rest =>
    if c = byte 'J' then
      if layoutHas l "Jan" then
        if layoutHas l "January" then some ([], .stdLongMonth, 7)
        else if !startsWithLowerCase (l.drop 3) then some ([], .stdMonth, 3)
        else none
      else none
    else if c = byte 'M' then
      if layoutHas l "Mon" then
        if layoutHas l "Monday" then some ([], .stdLongWeekDay, 6)
        else if !startsWithLowerCase (l.drop 3) then some ([], .stdWeekDay, 3)
        else none
      else if layoutHas l "MST" then some ([], .stdTZ, 3)
      else none
    else if c = byte '0' then
      if 2 ≤ l.length ∧ byte '1' ≤ l.getD 1 0 ∧ l.getD 1 0 ≤ byte '6' then
        some ([], std0x (l.getD 1 0 - byte '1'), 2)
      else if layoutHas l "002" then some ([], .stdZeroYearDay, 3)
      else none
    else if c = byte '1' then
      if layoutHas l "15" then some ([], .stdHour, 2)
      else some ([], .stdNumMonth, 1)
    else if c = byte '2' then
      if layoutHas l "2006" then some ([], .stdLongYear, 4)
      else some ([], .stdDay, 1)
    else if c = byte '_' then
      if layoutHas l "_2" then
        -- _2006 is really a literal _, followed by stdLongYear
        if layoutHas l "_2006" then some ([c], .stdLongYear, 5)
        else some ([], .stdUnderDay, 2)
      else if layoutHas l "__2" then some ([], .stdUnderYearDay, 3)
      else none
    else if c = byte '3' then some ([], .stdHour12, 1)
    else if c = byte '4' then some ([], .stdMinute, 1)
    else if c = byte '5' then some ([], .stdSecond, 1)
    else if c = byte 'P' then
      if layoutHas l "PM" then some ([], .stdPM, 2) else none
    else if c = byte 'p' then
      if layoutHas l "pm" then some ([], .stdpm, 2) else none
    else if c = byte '-' then
      if layoutHas l "-070000" then some ([], .stdNumSecondsTz, 7)
      else if layoutHas l "-07:00:00" then some ([], .stdNumColonSecondsTZ, 9)
      else if layoutHas l "-0700" then some ([], .stdNumTZ, 5)
      else if layoutHas l "-07:00" then some ([], .stdNumColonTZ, 6)
      else if layoutHas l "-07" then some ([], .stdNumShortTZ, 3)
      else none
    else if c = byte 'Z' then
      if layoutHas l "Z070000" then some ([], .stdISO8601SecondsTZ, 7)
      else if layoutHas l "Z07:00:00" then some ([], .stdISO8601ColonSecondsTZ, 9)
      else if layoutHas l "Z0700" then some ([], .stdISO8601TZ, 5)
      else if layoutHas l "Z07:00" then some ([], .stdISO8601ColonTZ, 6)
      else if layoutHas l "Z07" then some ([], .stdISO8601ShortTZ, 3)
      else none
    else if c = byte '.' ∨ c = byte ',' then
      -- ,000, or .000, or ,999, or .999: repeated digits for fractional seconds
      match rest with
      | [] => none
      | ch :: _ =>
        if ch = byte '0' ∨ ch = byte '9' then
          let run := (rest.takeWhile (fun d => d = ch)).length
          -- the string of digits must end here: only a fractional second is all digits
          if !isDigit (rest.drop run) 0 then
            some ([], if ch = byte '9' then .stdFracSecond9 run c else .stdFracSecond0 run c,
              1 + run)
          else none
        else none
    else none

/-- Loop of `nextStdChunk`: `acc` is `layout[0:i]` and the list argument is `layout[i:]`.
The rest of the layout after an element of `k` bytes is `layout[i+k:]`, which is
`layout[i+1:]` without its first `k - 1` bytes, every element having at least one byte. -/
def nextStdChunkFrom (acc : GoString) : GoString → GoString × Option Std × GoString
  | [] => (acc, none, [])
  | c :: rest =>
    match stdChunkAt (c :: rest) with
    | some (lit, std, k) => (acc ++ lit, some std, rest.drop (k - 1))
    | none => nextStdChunkFrom (acc ++ [c]) rest

/-- Go `time.nextStdChunk(layout)`: the leading literal text, the first layout element
(`none` for the code 0) and the text after the element. -/
def nextStdChunk (layout : GoString) : GoString × Option Std × GoString :=
  nextStdChunkFrom [] layout

/-- Go `time.appendInt(b, x, width)`: the decimal form of `x`, zero-padded to `width`, after a
minus sign when `x` is negative. Fields of two and four digits are taken from a digit table. -/
def appendInt (x : Int) (width : Nat) : GoString :=
  let sign : GoString := if x < 0 then [byte '-'] else []
  let u := x.natAbs
  if width = 2 ∧ u < 100 then
    sign ++ [byte '0' + u / 10, byte '0' + u % 10]
  else if width = 4 ∧ u < 10000 then
    sign ++ [byte '0' + u / 100 / 10, byte '0' + u / 100 % 10,
      byte '0' + u % 100 / 10, byte '0' + u % 100 % 10]
  else
    let digits := (Nat.toDigits 10 u).map Char.toNat
    sign ++ List.replicate (width - digits.length) (byte '0') ++ digits

/-- The table `longMonthNames` of package `time`. -/
def longMonthNames : List String :=
  ["January", "February", "March", "April", "May", "June", "July", "August", "September",
    "October", "November", "December"]

/-- The table `longDayNames` of package `time`. -/
def longDayNames : List String :=
  ["Sunday", "Monday", "Tuesday", "Wednesday", "Thursday", "Friday", "Saturday"]

/-- Go `Month.String()`. -/
def Month.String (m : Nat) : GoString :=
  if 1 ≤ m ∧ m ≤ 12 then ascii (longMonthNames.getD (m - 1) "")
  else ascii "%!Month(" ++ appendInt m 0 ++ ascii ")"

/-- Go `Weekday.String()`. -/
def Weekday.String (d : Nat) : GoString :=
  if d ≤ 6 then ascii (longDayNames.getD d "")
  else ascii "%!Weekday(" ++ appendInt d 0 ++ ascii ")"

/-- Go `time.appendNano(b, nanosec, std)`: the fractional second with `n` digits after the
separator; with `trim` (the element of nines) trailing zeros and a bare separator are removed. -/
def appendNano (nanosec : Nat) (trim : Bool) (n : Nat) (sep : Byte) : GoString :=
  if trim ∧ (n = 0 ∨ nanosec = 0) then [] else
  let b := sep :: (appendInt nanosec 9).take n
  if trim then
    let b := (b.reverse.dropWhile (fun d => d = byte '0')).reverse
    if b.getLast? = some sep then b.dropLast else b
  else b

/-- The numeric zone elements of `appendFormat`, for a zone `offset` in seconds. -/
def appendZone (offset : Int) (std : Std) : GoString :=
  let iso := std = .stdISO8601TZ ∨ std = .stdISO8601ColonTZ ∨ std = .stdISO8601SecondsTZ
    ∨ std = .stdISO8601ShortTZ ∨ std = .stdISO8601ColonSecondsTZ
  if offset = 0 ∧ iso then [byte 'Z'] else
  let zone := offset.tdiv 60
  let sign := if zone < 0 then byte '-' else byte '+'
  let zone := if zone < 0 then -zone else zone
  let absoffset := if offset.tdiv 60 < 0 then -offset else offset
  let colon := std = .stdISO8601ColonTZ ∨ std = .stdNumColonTZ ∨ std = .stdISO8601ColonSecondsTZ
    ∨ std = .stdNumColonSecondsTZ
  let short := std = .stdNumShortTZ ∨ std = .stdISO8601ShortTZ
  let secs := std = .stdISO8601SecondsTZ ∨ std = .stdNumSecondsTz ∨ std = .stdNumColonSecondsTZ
    ∨ std = .stdISO8601ColonSecondsTZ
  let colonSecs := std = .stdNumColonSecondsTZ ∨ std = .stdISO8601ColonSecondsTZ
  [sign] ++ appendInt (zone.tdiv 60) 2
    ++ (if colon then [byte ':'] else [])
    ++ (if short then [] else appendInt (zone.tmod 60) 2)
    ++ (if secs then (if colonSecs then [byte ':'] else []) ++ appendInt (absoffset.tmod 60) 2
        else [])

/-- One iteration of the switch of `Time.appendFormat`: the text of a layout element. -/
def Time.appendStd (t : Time) (std : Std) : GoString :=
  match std with
  | .stdYear => appendInt ((if t.year < 0 then -t.year else t.year).tmod 100) 2
  | .stdLongYear => appendInt t.year 4
  | .stdMonth => (Month.String t.month).take 3
  | .stdLongMonth => Month.String t.month
  | .stdNumMonth => appendInt t.month 0
  | .stdZeroMonth => appendInt t.month 2
  | .stdWeekDay => (Weekday.String t.weekday).take 3
  | .stdLongWeekDay => Weekday.String t.weekday
  | .stdDay => appendInt t.day 0
  | .stdUnderDay => (if t.day < 10 then [byte ' '] else []) ++ appendInt t.day 0
  | .stdZeroDay => appendInt t.day 2
  | .stdUnderYearDay =>
    (if t.yday < 100 then [byte ' '] ++ (if t.yday < 10 then [byte ' '] else []) else [])
      ++ appendInt t.yday 0
  | .stdZeroYearDay => appendInt t.yday 3
  | .stdHour => appendInt t.hour 2
  | .stdHour12 => appendInt (if t.hour % 12 = 0 then 12 else t.hour % 12 : Nat) 0
  | .stdZeroHour12 => appendInt (if t.hour % 12 = 0 then 12 else t.hour % 12 : Nat) 2
  | .stdMinute => appendInt t.minute 0
  | .stdZeroMinute => appendInt t.minute 2
  | .stdSecond => appendInt t.second 0
  | .stdZeroSecond => appendInt t.second 2
  | .stdPM => if t.hour ≥ 12 then ascii "PM" else ascii "AM"
  | .stdpm => if t.hour ≥ 12 then ascii "pm" else ascii "am"
  | .stdTZ => ascii "UTC"
  | .stdFracSecond0 n sep => appendNano t.nanosecond false n sep
  | .stdFracSecond9 n sep => appendNano t.nanosecond true n sep
  | z => appendZone 0 z

/-- Loop of Go `Time.appendFormat(b, layout)`: each iteration copies the literal text before
the next layout element and appends the text of the element. Every iteration shortens the
layout, so `fuel = len(layout)` iterations are enough (`appendFormat_fuel`). -/
def Time.appendFormat (t : Time) : Nat → GoString → GoString
  | 0, _ => []
  | fuel + 1, layout =>
    if layout = [] then [] else
    match nextStdChunk layout with
    | (pre, none, _) => pre
    | (pre, some std, suffix) => pre ++ t.appendStd std ++ Time.appendFormat t fuel suffix

/-- Go `Time.Format(layout)`, for a time in UTC. -/
def Time.Format (t : Time) (layout : GoString) : GoString :=
  t.appendFormat layout.length layout

/-! ## The world outside the process -/

/-- The result of one `env.Parse(v)` of package `config`: `nil`, an `env.AggregateError`
carrying a list of errors, or any other error. -/
inductive ParseResult where
  | ok
  | aggregate (errs : List Error)
  | other (err : Error)
deriving DecidableEq, Repr

/-- The outcome of every call that leaves the process during one run. An `Option Error` is the
`error` result of the call (`none` is `nil`). -/
structure Env where
  /-- Result of `env.Parse(AWS)`. -/
  parseAWS : ParseResult
  /-- Result of `env.Parse(Backup)`. -/
  parseBackup : ParseResult
  /-- The value of `config.Backup.RunOnStart` after parsing. -/
  runOnStart : Bool
  /-- The value of `config.Backup.DatabaseURL`. -/
  databaseURL : GoString
  /-- The value of `config.Backup.GzipConcurrency`. -/
  gzipConcurrency : Int
  /-- Result of `ListObjectsV2` in `CheckBucketAccess`. -/
  listObjectsErr : Option Error
  /-- The value of `time.Now().UTC()` in `dumpToFile`. -/
  timeNowUTC : Time
  /-- The function `filepath.Join(os.TempDir(), name)`. -/
  joinTempDir : GoString → GoString
  /-- Result of `os.Create`. -/
  createErr : Option Error
  /-- The field `pgDumpCmd.Err` after `exec.Command`. -/
  cmdErr : Option Error
  /-- Result of `pgDumpCmd.Run()`. -/
  runErr : Option Error
  /-- The text written by the process to its standard error. -/
  stderr : GoString
  /-- The value of `dumpFileUnCompressedCounter.Count()`. -/
  uncompressedCount : Nat
  /-- The value of `dumpFileCompressedCounter.Count()`. -/
  compressedCount : Nat
  /-- The value of `time.Since(startTime)` in `dumpToFile`, in nanoseconds. -/
  dumpFuncTime : Nat
  /-- Result of `os.Remove`. -/
  removeErr : Option Error
  /-- Result of `os.Open`. -/
  openErr : Option Error
  /-- Result of `uploader.Upload`. -/
  uploadErr : Option Error
  /-- The value of `time.Since(startTime)` in `UploadToS3`, in nanoseconds. -/
  uploadFuncTime : Nat
  /-- The value of `time.Since(sTime)` in `RunBackup`, in nanoseconds. -/
  totalTime : Nat
  /-- The value of `memStats.TotalAlloc`. -/
  memTotalAlloc : Nat
  /-- The value of `memStats.Sys`. -/
  memSys : Nat

/-- The two loggers of package `logger`. -/
inductive Logger where
  | Stdout
  | Stderr
deriving DecidableEq, Repr

/-- The level of a log record. -/
inductive Level where
  | Info
  | Warn
  | Error
deriving DecidableEq, Repr

/-- An attribute of a log record. -/
inductive Attr where
  /-- Attribute made by `slog.String(key, value)`. -/
  | String (key : String) (value : GoString)
  /-- Attribute made by `logger.SizeAttrIEC(size, key)`. -/
  | SizeAttrIEC (size : Nat) (key : String)
  /-- Attribute made by `logger.DurationAttr(d)`. -/
  | DurationAttr (d : Nat)
  /-- Attribute made by `logger.ErrAttr(err)`. -/
  | ErrAttr (err : Error)
  /-- Attribute made by `logger.ErrorsAttr(errors...)`. -/
  | ErrorsAttr (errs : List Error)
  /-- Attribute made by `slog.Group(key, ...)` over size attributes. -/
  | Group (key : String) (sizes : List (Nat × String))
deriving DecidableEq, Repr

/-- The two handles of the dump file: `dumpFile` of `dumpToFile` (from `os.Create`) and
`dumpFile` of `RunBackup` (from `os.Open`). -/
inductive Handle where
  | write
  | read
deriving DecidableEq, Repr

/-- One observable step of a run. A flag `ok` tells whether the call returned a `nil` error. -/
inductive Event where
  | log (logger : Logger) (level : Level) (msg : String) (attrs : List Attr)
  | osCreate (path : GoString) (ok : Bool)
  | osOpen (path : GoString) (ok : Bool)
  | fileClose (h : Handle)
  | osRemove (path : GoString) (ok : Bool)
  | gzipSetConcurrency (blockSize : Nat) (blocks : Int)
  | gzipSetHeader (name : GoString) (modTime : Time)
  | gzipFlush
  | gzipClose
  | cmdRun (name : String) (args : List GoString) (ok : Bool)
  | s3ListObjectsV2 (maxKeys : Nat) (ok : Bool)
  | s3Upload (contentType : String) (key : GoString) (body : Handle) (partSize : Nat) (ok : Bool)
  | osExit (code : Nat)
deriving DecidableEq, Repr

/-! ## `backup.go` -/

/-- The struct `dumpInfo`. -/
structure dumpInfo where
  basename : GoString
  filename : GoString
  filepath : GoString
  compressedSize : Nat
  uncompressedSize : Nat
  stderr : GoString
  funcTime : Nat
deriving DecidableEq, Repr

/-- The struct `uploadInfo`. -/
structure uploadInfo where
  funcTime : Nat
  size : Nat
deriving DecidableEq, Repr

/-- The part of `dumpToFile` after `defer dumpFile.Close()`: result and events up to the
`return`, the deferred call excluded. -/
def dumpToFileBody (env : Env) (dump : dumpInfo) : Except Error dumpInfo × List Event :=
  match env.cmdErr with
  | some err => (.error err, [])
  | none =>
    let setup : List Event :=
      [.gzipSetConcurrency (5 * 1024 * 1024) env.gzipConcurrency,
       .gzipSetHeader dump.basename env.timeNowUTC]
    let args : List GoString :=
      [ascii "-d", env.databaseURL, ascii "-F", ascii "custom", ascii "-Z", ascii "0"]
    match env.runErr with
    | some err =>
      let tr := setup ++ [.cmdRun "pg_dump" args false, .gzipClose, .fileClose .write,
        .osRemove dump.filepath env.removeErr.isNone]
      if env.stderr.length > 0 then
        (.error (getPgDumpError env.stderr), tr)
      else
        (.error err, tr)
    | none =>
      let tr := setup ++ [.cmdRun "pg_dump" args true, .gzipFlush, .gzipClose]
      let dump := { dump with funcTime := env.dumpFuncTime }
      if env.uncompressedCount = 0 then
        let tr := tr ++ [.fileClose .write, .osRemove dump.filepath env.removeErr.isNone]
        if env.stderr.length > 0 then
          (.error (getPgDumpError env.stderr), tr)
        else
          (.error (fmt.Errorf (ascii "backup wrote 0 bytes")), tr)
      else
        (.ok { dump with
                compressedSize := env.compressedCount
                uncompressedSize := env.uncompressedCount
                stderr := strings.TrimSpace env.stderr }, tr)

/-- The function `dumpToFile` of `backup.go`. -/
def dumpToFile (env : Env) : Except Error dumpInfo × List Event :=
  let timeNowUTC := env.timeNowUTC
  let timestamp := timeNowUTC.Format (ascii "Mon_02_Jan_2006_15-04-05_MST")
  let basename := ascii "Backup_" ++ timestamp ++ ascii ".dump"
  let filename := basename ++ ascii ".gz"
  let filepath := env.joinTempDir filename
  let dump : dumpInfo :=
    { basename := basename, filename := filename, filepath := filepath,
      compressedSize := 0, uncompressedSize := 0, stderr := [], funcTime := 0 }
  match env.createErr with
  | some err => (.error err, [.osCreate filepath false])
  | none =>
    let (res, tr) := dumpToFileBody env dump
    -- defer dumpFile.Close()
    (res, [.osCreate filepath true] ++ tr ++ [.fileClose .write])

/-- The function `UploadToS3` of `backup.go`. -/
def UploadToS3 (env : Env) (dumpFilename : GoString) (body : Handle) :
    Except Error uploadInfo × List Event :=
  match env.uploadErr with
  | some err =>
    (.error err, [.s3Upload "application/gzip" dumpFilename body (5 * 1024 * 1024) false])
  | none =>
    (.ok { funcTime := env.uploadFuncTime, size := 0 },
      [.s3Upload "application/gzip" dumpFilename body (5 * 1024 * 1024) true])

/-- The part of `RunBackup` after `defer dumpFile.Close()`: result (`none` is `nil`) and events
up to the `return`, the deferred call excluded. -/
def RunBackupBody (env : Env) (dump : dumpInfo) : Option Error × List Event :=
  let tr : List Event := [.log .Stdout .Info "Uploading backup to S3..." []]
  match UploadToS3 env dump.filename .read with
  | (.error err, tru) => (some err, tr ++ tru)
  | (.ok uploadInfo, tru) =>
    let tr := tr ++ tru ++
      [.log .Stdout .Info "Backup Uploaded"
        [.String "filename_in_bucket" dump.filename, .DurationAttr uploadInfo.funcTime,
         .SizeAttrIEC dump.compressedSize "uploaded_size"],
       .log .Stdout .Info "Deleting local file..." [],
       .fileClose .read,
       .osRemove dump.filepath env.removeErr.isNone]
    match env.removeErr with
    | some err => (some err, tr)
    | none =>
      (none, tr ++
        [.log .Stdout .Info "Local file deleted" [],
         .log .Stdout .Info "Database backup complete"
           [.DurationAttr env.totalTime,
            .Group "mem_stats" [(env.memTotalAlloc, "total_alloc"), (env.memSys, "sys")]]])

/-- The function `RunBackup` of `backup.go`; the result `none` is `nil`. -/
def RunBackup (env : Env) : Option Error × List Event :=
  let tr : List Event := [.log .Stdout .Info "Dumping database to disk..." []]
  match dumpToFile env with
  | (.error err, trd) => (some err, tr ++ trd)
  | (.ok dump, trd) =>
    let dumpedLog : List Attr :=
      [.String "filename" dump.filename,
       .SizeAttrIEC dump.compressedSize "compressed_filesize",
       .SizeAttrIEC dump.uncompressedSize "un_compressed_filesize",
       .DurationAttr dump.funcTime]
    let tr := tr ++ trd ++
      (if dump.stderr ≠ [] then
        [Event.log .Stdout .Warn "Database dumped with warnings"
          (dumpedLog ++ [.String "stderr" dump.stderr])]
      else
        [Event.log .Stdout .Info "Database dumped" dumpedLog])
    match env.openErr with
    | some err => (some err, tr ++ [.osOpen dump.filepath false])
    | none =>
      let (res, trb) := RunBackupBody env dump
      -- defer dumpFile.Close()
      (res, tr ++ [.osOpen dump.filepath true] ++ trb ++ [.fileClose .read])

/-! ## `s3.go`, `internal/config/config.go`, `main.go` -/

/-- The function `CheckBucketAccess` of `s3.go`. -/
def CheckBucketAccess (env : Env) : Option Error × List Event :=
  match env.listObjectsErr with
  | some err => (some err, [.s3ListObjectsV2 0 false])
  | none => (none, [.s3ListObjectsV2 0 true])

/-- The loop of `init` in package `config`: the errors of the parse results, collected. -/
def config.collect (errors : List Error) : List ParseResult → List Error
  | [] => errors
  | .ok :: rest => config.collect errors rest
  | .aggregate errs :: rest => config.collect (errors ++ errs) rest
  | .other err :: rest => config.collect (errors ++ [err]) rest

/-- The function `init` of package `config`: `some code` when it ends the process. -/
def config.init (env : Env) : Option Nat × List Event :=
  let errors := config.collect [] [env.parseAWS, env.parseBackup]
  if errors.length > 0 then
    (some 1, [.log .Stderr .Error "Errors found while parsing environment variables"
      [.ErrorsAttr errors], .osExit 1])
  else
    (none, [])

/-- The function `main` of `main.go`: the exit code of the process and the events. -/
def main (env : Env) : Nat × List Event :=
  if !env.runOnStart then
    (0, [.log .Stdout .Warn "Skipping database backup, not configured to run on startup" [],
         .osExit 0])
  else
    let tr : List Event := [.log .Stdout .Info "Checking access to bucket..." []]
    match CheckBucketAccess env with
    | (some err, trc) =>
      (1, tr ++ trc ++
        [.log .Stderr .Error "Error checking bucket access" [.ErrAttr err], .osExit 1])
    | (none, trc) =>
      let tr := tr ++ trc ++
        [.log .Stdout .Info "Access to bucket confirmed" [],
         .log .Stdout .Info "Starting backup..." []]
      match RunBackup env with
      | (some err, trb) =>
        (1, tr ++ trb ++
          [.log .Stderr .Error "Error while running backup.. Exiting.." [.ErrAttr err],
           .osExit 1])
      | (none, trb) => (0, tr ++ trb)

/-- The whole process: package initialisation of `config`, then `main`. -/
def process (env : Env) : Nat × List Event :=
  match config.init env with
  | (some code, tr) => (code, tr)
  | (none, tr) =>
    let (code, trm) := main env
    (code, tr ++ trm)

/-! ## State replayed from the events -/

/-- The effect of one event on the presence of the file at `path`: a successful `os.Create`
makes it exist, a successful `os.Remove` removes it. -/
def stepDisk (path : GoString) (present : Bool) : Event → Bool
  | .osCreate p true => if p = path then true else present
  | .osRemove p true => if p = path then false else present
  | _ => present

/-- Whether the file at `path` is on disk after the events, starting from `before`. -/
def onDisk (path : GoString) (before : Bool) (events : List Event) : Bool :=
  events.foldl (stepDisk path) before

/-- The effect of one event on the handle `h`: a successful `os.Create` opens the write handle,
a successful `os.Open` the read handle, `Close` closes. -/
def stepOpen (h : Handle) (opened : Bool) : Event → Bool
  | .osCreate _ true => if h = .write then true else opened
  | .osOpen _ true => if h = .read then true else opened
  | .fileClose h2 => if h2 = h then false else opened
  | _ => opened

/-- Whether the handle `h` is open after the events, starting from `before`. -/
def isOpen (h : Handle) (before : Bool) (events : List Event) : Bool :=
  events.foldl (stepOpen h) before

/-- Whether the write handle and the read handle are never open together, in the initial state
and after each event. -/
def neverBothOpen (w r : Bool) : List Event → Bool
  | [] => !(w && r)
  | e :: rest => !(w && r) && neverBothOpen (stepOpen .write w e) (stepOpen .read r e) rest

/-! ## Observations on a run -/

/-- The value of `dump.basename` computed by `dumpToFile` for the start instant `t`. -/
def basenameAt (t : Time) : GoString :=
  ascii "Backup_" ++ t.Format (ascii "Mon_02_Jan_2006_15-04-05_MST") ++ ascii ".dump"

/-- The value of `dump.filename` computed by `dumpToFile` for the start instant `t`. -/
def filenameAt (t : Time) : GoString := basenameAt t ++ ascii ".gz"

/-- The argument list of the `pg_dump` command. -/
def pgDumpArgs (env : Env) : List GoString :=
  [ascii "-d", env.databaseURL, ascii "-F", ascii "custom", ascii "-Z", ascii "0"]

/-- The `dumpInfo` returned by a successful `dumpToFile`. -/
def dumpOf (env : Env) : dumpInfo :=
  { basename := basenameAt env.timeNowUTC
    filename := filenameAt env.timeNowUTC
    filepath := env.joinTempDir (filenameAt env.timeNowUTC)
    compressedSize := env.compressedCount
    uncompressedSize := env.uncompressedCount
    stderr := strings.TrimSpace env.stderr
    funcTime := env.dumpFuncTime }

/-- The events of a successful `dumpToFile`. -/
def dumpOkTrace (env : Env) : List Event :=
  [.osCreate (env.joinTempDir (filenameAt env.timeNowUTC)) true,
   .gzipSetConcurrency (5 * 1024 * 1024) env.gzipConcurrency,
   .gzipSetHeader (basenameAt env.timeNowUTC) env.timeNowUTC,
   .cmdRun "pg_dump" (pgDumpArgs env) true,
   .gzipFlush, .gzipClose, .fileClose .write]

/-- The attributes of the logger `dumpedLog` of `RunBackup`. -/
def dumpedLogAttrs (dump : dumpInfo) : List Attr :=
  [.String "filename" dump.filename,
   .SizeAttrIEC dump.compressedSize "compressed_filesize",
   .SizeAttrIEC dump.uncompressedSize "un_compressed_filesize",
   .DurationAttr dump.funcTime]

/-- The record that `RunBackup` writes after a successful dump. -/
def dumpedRecord (dump : dumpInfo) : Event :=
  if dump.stderr ≠ [] then
    .log .Stdout .Warn "Database dumped with warnings"
      (dumpedLogAttrs dump ++ [.String "stderr" dump.stderr])
  else
    .log .Stdout .Info "Database dumped" (dumpedLogAttrs dump)

/-- Whether an event is the upload. -/
def Event.isUpload : Event → Bool
  | .s3Upload _ _ _ _ _ => true
  | _ => false

/-- Whether an event is a log record of level `Warn`. -/
def Event.isWarn : Event → Bool
  | .log _ .Warn _ _ => true
  | _ => false

/-- The record written by `main` when the backup is skipped. -/
def skipRecord : Event :=
  .log .Stdout .Warn "Skipping database backup, not configured to run on startup" []

/-- The first record of `RunBackup`: it marks the invocation of the pipeline. -/
def runBackupEntry : Event := .log .Stdout .Info "Dumping database to disk..." []

/-- Whether an event is the run of the dump process. -/
def Event.isCmdRun : Event → Bool
  | .cmdRun _ _ _ => true
  | _ => false

/-- Whether an event is a call to the object storage. -/
def Event.isStorage : Event → Bool
  | .s3ListObjectsV2 _ _ => true
  | .s3Upload _ _ _ _ _ => true
  | _ => false

/-- Whether an event opens the read handle. -/
def Event.opensRead : Event → Bool
  | .osOpen _ true => true
  | _ => false

/-! ## The file name of the specification -/

/-- The calendar fields of a start instant are in range: a year of four digits, a month from
1 to 12, a day from 1 to 31, an hour below 24, minute and second below 60, and a weekday
from 0 to 6. -/
def Time.inRange (t : Time) : Prop :=
  0 ≤ t.year ∧ t.year ≤ 9999 ∧ 1 ≤ t.month ∧ t.month ≤ 12 ∧ 1 ≤ t.day ∧ t.day ≤ 31 ∧
    t.hour < 24 ∧ t.minute < 60 ∧ t.second < 60 ∧ t.weekday ≤ 6

instance (t : Time) : Decidable t.inRange := by
  unfold Time.inRange
  infer_instance

/-- Two start instants fall in the same UTC second: they have the same date (and so the same
weekday) and the same hour, minute and second. -/
def Time.sameSecond (t u : Time) : Prop :=
  t.year = u.year ∧ t.month = u.month ∧ t.day = u.day ∧ t.hour = u.hour ∧
    t.minute = u.minute ∧ t.second = u.second ∧ t.weekday = u.weekday

instance (t u : Time) : Decidable (t.sameSecond u) := by
  unfold Time.sameSecond
  infer_instance

/-- The UTC second of a start instant: its date and its time of day to second precision. -/
def Time.secondOf (t : Time) : Int × Nat × Nat × Nat × Nat × Nat :=
  (t.year, t.month, t.day, t.hour, t.minute, t.second)

/-- The three-letter weekday names of the specification, Sunday first. -/
def weekdayAbbrev : List String := ["Sun", "Mon", "Tue", "Wed", "Thu", "Fri", "Sat"]

/-- The three-letter month names of the specification. -/
def monthAbbrev : List String :=
  ["Jan", "Feb", "Mar", "Apr", "May", "Jun", "Jul", "Aug", "Sep", "Oct", "Nov", "Dec"]

/-- A number as two decimal digits, zero-padded. -/
def twoDigits (n : Nat) : GoString := [byte '0' + n / 10, byte '0' + n % 10]

/-- A number as four decimal digits, zero-padded. -/
def fourDigits (n : Nat) : GoString :=
  [byte '0' + n / 1000, byte '0' + n / 100 % 10, byte '0' + n / 10 % 10, byte '0' + n % 10]

/-- The filename of the specification: `Backup_W_DD_Mon_YYYY_HH-MM-SS_UTC.dump.gz`. -/
def specFilename (t : Time) : GoString :=
  ascii "Backup_" ++ ascii (weekdayAbbrev.getD t.weekday "") ++ ascii "_" ++ twoDigits t.day
    ++ ascii "_" ++ ascii (monthAbbrev.getD (t.month - 1) "") ++ ascii "_"
    ++ fourDigits t.year.toNat ++ ascii "_" ++ twoDigits t.hour ++ ascii "-"
    ++ twoDigits t.minute ++ ascii "-" ++ twoDigits t.second ++ ascii "_UTC.dump.gz"

/-! ## Concrete runs -/

/-- A start instant: Saturday 9 March 2024, 14:05:07.123456789 UTC. -/
def sampleTime : Time :=
  { year := 2024, month := 3, day := 9, hour := 14, minute := 5, second := 7,
    nanosecond := 123456789, weekday := 6, yday := 69 }

/-- Another start instant in the same second as `sampleTime`. -/
def sampleTimeLater : Time := { sampleTime with nanosecond := 987654321 }

/-- A start instant one second after `sampleTime`. -/
def sampleTimeNext : Time := { sampleTime with second := 8 }

/-- Scenario A: the dump emits 10,000 bytes and no diagnostic text and exits 0; every other
call succeeds. -/
def scenarioA : Env :=
  { parseAWS := .ok, parseBackup := .ok, runOnStart := true,
    databaseURL := ascii "postgres://localhost/app", gzipConcurrency := 20,
    listObjectsErr := none, timeNowUTC := sampleTime,
    joinTempDir := fun name => ascii "/tmp/" ++ name,
    createErr := none, cmdErr := none, runErr := none, stderr := [],
    uncompressedCount := 10000, compressedCount := 2048, dumpFuncTime := 1500,
    removeErr := none, openErr := none, uploadErr := none, uploadFuncTime := 2500,
    totalTime := 4000, memTotalAlloc := 1048576, memSys := 8388608 }

/-- Scenario B: the dump exits 1 after a notice line and an error line. -/
def scenarioB : Env :=
  { scenarioA with
    runErr := some (errors.New (ascii "exit status 1"))
    stderr := ascii "NOTICE: foo\npg_dump: error: relation bar missing\n"
    uncompressedCount := 0, compressedCount := 0 }

/-- The dump exits 0 without having written a byte and without diagnostic text. -/
def scenarioZeroBytes : Env :=
  { scenarioA with uncompressedCount := 0, compressedCount := 0 }

/-- A successful dump whose diagnostic text is a single line end. -/
def scenarioBlankStderr : Env := { scenarioA with stderr := ascii "\n" }

/-- A successful dump with a notice on standard error. -/
def scenarioNotice : Env := { scenarioA with stderr := ascii "NOTICE: table skipped\n" }

/-- The dump succeeds and the upload fails. -/
def scenarioUploadFails : Env :=
  { scenarioA with uploadErr := some (errors.New (ascii "operation error S3: PutObject")) }

/-- The dump succeeds and the dump file cannot be reopened. -/
def scenarioOpenFails : Env :=
  { scenarioA with openErr := some (errors.New (ascii "open: too many open files")) }

/-- The file is created and `exec.Command` reports that `pg_dump` is not in the path. -/
def scenarioCmdErr : Env :=
  { scenarioA with cmdErr := some (errors.New (ascii "exec: pg_dump: not found")) }

/-- The run-on-start flag is disabled. -/
def scenarioSkip : Env := { scenarioA with runOnStart := false }

/-- The bucket access check fails. -/
def scenarioNoAccess : Env :=
  { scenarioA with listObjectsErr := some (errors.New (ascii "AccessDenied")) }

/-- The path of the dump file in the concrete runs. -/
def samplePath : GoString := ascii "/tmp/Backup_Sat_09_Mar_2024_14-05-07_UTC.dump.gz"

/-! ## `strings.Index` and the error message -/

theorem indexFrom_spec (substr : GoString) (s : GoString) (i : Nat) :
    (strings.indexFrom substr s i = -1 ∧ ¬ substr <:+: s) ∨
    (∃ p m, s = p ++ m ∧ substr <+: m ∧ strings.indexFrom substr s i = ((i + p.length : Nat) : Int)
      ∧ ∀ q r, s = q ++ substr ++ r → p.length ≤ q.length) := by
  induction s generalizing i with
  | nil =>
    by_cases h : substr = []
    · right
      exact ⟨[], [], by simp, by simp [h], by simp [strings.indexFrom, h], by simp⟩
    · left
      refine ⟨by simp [strings.indexFrom, h], ?_⟩
      intro hin
      exact h (List.eq_nil_of_infix_nil hin)
  | cons c rest ih =>
    by_cases hp : substr.isPrefixOf (c :: rest) = true
    · right
      refine ⟨[], c :: rest, by simp, List.isPrefixOf_iff_prefix.mp hp, ?_, by simp⟩
      simp [strings.indexFrom, hp]
    · have hnp : ¬ substr <+: c :: rest := fun h => hp (List.isPrefixOf_iff_prefix.mpr h)
      rcases ih (i + 1) with ⟨h1, h2⟩ | ⟨p, m, hs, hm, hi, hmin⟩
      · left
        refine ⟨by simp [strings.indexFrom, hp, h1], ?_⟩
        intro hin
        rcases List.infix_cons_iff.mp hin with h | h
        · exact hnp h
        · exact h2 h
      · right
        refine ⟨c :: p, m, by simp [hs], hm, ?_, ?_⟩
        · simp only [strings.indexFrom, hp, hi]
          simp only [Bool.false_eq_true, ↓reduceIte, List.length_cons]
          congr 1
          omega
        · intro q r hq
          cases q with
          | nil =>
            exfalso
            apply hnp
            exact ⟨r, by simpa using hq.symm⟩
          | cons d q' =>
            simp only [List.cons_append, List.cons.injEq] at hq
            have := hmin q' r hq.2
            simp only [List.length_cons]
            omega

theorem getPgDumpError_msg (s : GoString) :
    (errorSearchText <:+: s →
      ∃ p, s = p ++ (getPgDumpError s).msg ∧ errorSearchText <+: (getPgDumpError s).msg ∧
        ∀ q r, s = q ++ errorSearchText ++ r → p.length ≤ q.length) ∧
    (¬ errorSearchText <:+: s → (getPgDumpError s).msg = s) := by
  rcases indexFrom_spec errorSearchText s 0 with ⟨h1, h2⟩ | ⟨p, m, hs, hm, hi, hmin⟩
  · refine ⟨fun h => absurd h h2, fun _ => ?_⟩
    simp [getPgDumpError, strings.Index, h1, errors.New]
  · have hmsg : (getPgDumpError s).msg = m := by
      have hne : ((0 + p.length : Nat) : Int) ≠ -1 := by omega
      have hdrop : List.drop (0 + p.length) s = m := by rw [hs]; simp
      simp only [getPgDumpError, strings.Index, hi, ne_eq, hne, not_false_eq_true, ↓reduceIte,
        errors.New, Int.toNat_ofNat, hdrop]
    refine ⟨fun _ => ⟨p, ?_, ?_, hmin⟩, fun hnot => ?_⟩
    · rw [hmsg]; exact hs
    · rw [hmsg]; exact hm
    · exfalso
      apply hnot
      obtain ⟨t, ht⟩ := hm
      exact ⟨p, t, by rw [hs, ← ht]; simp⟩

/-- Claim C1. For every diagnostic text `s`: if `s` contains the marker `pg_dump: error:`, the
message returned by `getPgDumpError` begins with the marker and is the suffix of `s` at the
first occurrence of the marker (`s = p ++ m`, and no occurrence starts before the end of `p`);
if `s` does not contain the marker, the message is `s` unchanged. -/
theorem getPgDumpError_spec (s : GoString) :
    (ascii "pg_dump: error:" <:+: s →
      ∃ p, s = p ++ (getPgDumpError s).msg ∧ ascii "pg_dump: error:" <+: (getPgDumpError s).msg ∧
        ∀ q r, s = q ++ ascii "pg_dump: error:" ++ r → p.length ≤ q.length) ∧
    (¬ ascii "pg_dump: error:" <:+: s → (getPgDumpError s).msg = s) := by
  have hmark : errorSearchText = ascii "pg_dump: error:" := rfl
  have h := getPgDumpError_msg s
  rw [hmark] at h
  exact h

/-- Witness for C1: the text of scenario B contains the marker after a notice line, and the
message is the text from the marker on; a text without the marker is returned whole. -/
theorem getPgDumpError_spec_witness :
    (getPgDumpError (ascii "NOTICE: foo\npg_dump: error: relation bar missing\n")).msg
        = ascii "pg_dump: error: relation bar missing\n" ∧
    (getPgDumpError (ascii "connection refused\n")).msg = ascii "connection refused\n" ∧
    ∃ p, ascii "NOTICE: foo\npg_dump: error: relation bar missing\n"
        = p ++ (getPgDumpError (ascii "NOTICE: foo\npg_dump: error: relation bar missing\n")).msg :=
  ⟨by decide, by decide,
    let ⟨p, hp, _⟩ := (getPgDumpError_spec
      (ascii "NOTICE: foo\npg_dump: error: relation bar missing\n")).1
        ⟨ascii "NOTICE: foo\n", ascii " relation bar missing\n", by decide⟩
    ⟨p, hp⟩⟩

/-! ## Results of `dumpToFile` -/

theorem dumpToFile_fst (env : Env) :
    (dumpToFile env).1 =
      match env.createErr with
      | some err => .error err
      | none => (dumpToFileBody env
          { basename := ascii "Backup_"
              ++ env.timeNowUTC.Format (ascii "Mon_02_Jan_2006_15-04-05_MST") ++ ascii ".dump",
            filename := ascii "Backup_"
              ++ env.timeNowUTC.Format (ascii "Mon_02_Jan_2006_15-04-05_MST") ++ ascii ".dump"
              ++ ascii ".gz",
            filepath := env.joinTempDir (ascii "Backup_"
              ++ env.timeNowUTC.Format (ascii "Mon_02_Jan_2006_15-04-05_MST") ++ ascii ".dump"
              ++ ascii ".gz"),
            compressedSize := 0, uncompressedSize := 0, stderr := [], funcTime := 0 }).1 := by
  unfold dumpToFile
  cases env.createErr <;> rfl

/-- Claim C2. For every outcome of the dump process and every diagnostic text: when the
uncompressed byte counter observed 0 bytes, `dumpToFile` returns an error and no `dumpInfo`,
whatever the exit status; and every `dumpInfo` returned has `uncompressedSize` at least 1. -/
theorem dumpToFile_zero_bytes_is_failure (env : Env) :
    (env.uncompressedCount = 0 → ∃ err, (dumpToFile env).1 = .error err) ∧
    (∀ dump, (dumpToFile env).1 = .ok dump → 1 ≤ dump.uncompressedSize) := by
  rw [dumpToFile_fst]
  unfold dumpToFileBody
  constructor
  · intro h0
    cases env.createErr <;> cases env.cmdErr <;> cases env.runErr <;>
      by_cases h5 : env.stderr.length > 0 <;> simp [h0, h5]
  · intro dump
    cases env.createErr <;> cases env.cmdErr <;> cases env.runErr <;>
      by_cases h4 : env.uncompressedCount = 0 <;>
      by_cases h5 : env.stderr.length > 0 <;> simp [h4, h5]
    all_goals
      intro h
      rw [← h]
      simp only
      omega

/-- Witness for C2: a dump that exits 0 with 0 bytes written is reported as the error
`backup wrote 0 bytes`, and the successful dump of scenario A carries 10,000 bytes. -/
theorem dumpToFile_zero_bytes_is_failure_witness :
    scenarioZeroBytes.runErr = none ∧
    (dumpToFile scenarioZeroBytes).1 = .error (fmt.Errorf (ascii "backup wrote 0 bytes")) ∧
    (∃ err, (dumpToFile scenarioZeroBytes).1 = .error err) ∧
    (∃ dump, (dumpToFile scenarioA).1 = .ok dump ∧ 1 ≤ dump.uncompressedSize) :=
  ⟨rfl, by decide, (dumpToFile_zero_bytes_is_failure scenarioZeroBytes).1 rfl,
    match h : (dumpToFile scenarioA).1 with
    | .ok dump => ⟨dump, rfl, (dumpToFile_zero_bytes_is_failure scenarioA).2 dump h⟩
    | .error err => absurd h (by rw [dumpToFile_fst]; simp [scenarioA, dumpToFileBody])⟩

/-- Claim C4. For every failed dump (the file was created, the command was set up, and the
run returned an error or exited successfully with 0 bytes written) with diagnostic text `d`:
when `d` is non-empty the error returned by `dumpToFile` is `getPgDumpError d` in both failure
cases, whose message is `d` from the first marker `pg_dump: error:` on, or all of `d` when the
marker is absent; when `d` is empty the error is the error of the run, respectively the fixed
message `backup wrote 0 bytes`. For the text of scenario B the message is exactly
`pg_dump: error: relation bar missing` with its line end. -/
theorem dumpToFile_failure_message (env : Env)
    (hcreate : env.createErr = none) (hcmd : env.cmdErr = none)
    (hfail : env.runErr ≠ none ∨ env.uncompressedCount = 0) :
    (env.stderr ≠ [] →
      (dumpToFile env).1 = .error (getPgDumpError env.stderr) ∧
      (ascii "pg_dump: error:" <:+: env.stderr →
        ∃ p, env.stderr = p ++ (getPgDumpError env.stderr).msg ∧
          ascii "pg_dump: error:" <+: (getPgDumpError env.stderr).msg ∧
          ∀ q r, env.stderr = q ++ ascii "pg_dump: error:" ++ r → p.length ≤ q.length) ∧
      (¬ ascii "pg_dump: error:" <:+: env.stderr → (getPgDumpError env.stderr).msg = env.stderr)) ∧
    (env.stderr = [] →
      (∀ err, env.runErr = some err → (dumpToFile env).1 = .error err) ∧
      (env.runErr = none →
        (dumpToFile env).1 = .error (fmt.Errorf (ascii "backup wrote 0 bytes")))) ∧
    (env.stderr = ascii "NOTICE: foo\npg_dump: error: relation bar missing\n" →
      (dumpToFile env).1 = .error (errors.New (ascii "pg_dump: error: relation bar missing\n"))) := by
  have hres : env.stderr ≠ [] → (dumpToFile env).1 = .error (getPgDumpError env.stderr) := by
    intro hd
    have hlen : env.stderr.length > 0 := List.length_pos.mpr hd
    rw [dumpToFile_fst]
    unfold dumpToFileBody
    rcases hfail with hrun | hzero
    · cases hr : env.runErr with
      | none => exact absurd hr hrun
      | some err => simp [hcreate, hcmd, hlen]
    · cases hr : env.runErr <;> simp [hcreate, hcmd, hlen, hzero]
  refine ⟨fun hd => ⟨hres hd, ?_⟩, fun hd => ⟨?_, ?_⟩, fun hd => ?_⟩
  · have hmark : errorSearchText = ascii "pg_dump: error:" := rfl
    have h := getPgDumpError_msg env.stderr
    rw [hmark] at h
    exact h
  · intro err hr
    rw [dumpToFile_fst]
    unfold dumpToFileBody
    simp [hcreate, hcmd, hr, hd]
  · intro hr
    have hzero : env.uncompressedCount = 0 := by
      rcases hfail with h | h
      · exact absurd hr h
      · exact h
    rw [dumpToFile_fst]
    unfold dumpToFileBody
    simp [hcreate, hcmd, hr, hd, hzero]
  · have hne : env.stderr ≠ [] := by rw [hd]; decide
    rw [hres hne, hd]
    decide

/-- Witness for C4: scenario B, an exit status 1 after a notice line and an error line. -/
theorem dumpToFile_failure_message_witness :
    (dumpToFile scenarioB).1
      = .error (errors.New (ascii "pg_dump: error: relation bar missing\n")) :=
  (dumpToFile_failure_message scenarioB rfl rfl (Or.inl (by decide))).2.2 rfl

/-! ## Traces of `dumpToFile` and `RunBackup` -/

theorem dumpToFile_ok (env : Env) (hcreate : env.createErr = none) (hcmd : env.cmdErr = none)
    (hrun : env.runErr = none) (hcount : env.uncompressedCount ≠ 0) :
    dumpToFile env = (.ok (dumpOf env), dumpOkTrace env) := by
  simp [dumpToFile, dumpToFileBody, hcreate, hcmd, hrun, hcount, dumpOf, dumpOkTrace,
    basenameAt, filenameAt, pgDumpArgs]

theorem RunBackup_after_dump (env : Env) (hcreate : env.createErr = none)
    (hcmd : env.cmdErr = none) (hrun : env.runErr = none) (hcount : env.uncompressedCount ≠ 0) :
    RunBackup env =
      match env.openErr with
      | some err =>
        (some err,
          Event.log .Stdout .Info "Dumping database to disk..." [] :: dumpOkTrace env
            ++ [dumpedRecord (dumpOf env), .osOpen (dumpOf env).filepath false])
      | none =>
        ((RunBackupBody env (dumpOf env)).1,
          Event.log .Stdout .Info "Dumping database to disk..." [] :: dumpOkTrace env
            ++ [dumpedRecord (dumpOf env), .osOpen (dumpOf env).filepath true]
            ++ (RunBackupBody env (dumpOf env)).2 ++ [.fileClose .read]) := by
  unfold RunBackup
  rw [dumpToFile_ok env hcreate hcmd hrun hcount]
  cases env.openErr <;> by_cases hs : (dumpOf env).stderr = [] <;>
    simp [dumpedRecord, dumpedLogAttrs, hs]

theorem RunBackupBody_snd (env : Env) (dump : dumpInfo) :
    ∃ rest, (RunBackupBody env dump).2 =
      Event.log .Stdout .Info "Uploading backup to S3..." []
        :: .s3Upload "application/gzip" dump.filename .read (5 * 1024 * 1024) env.uploadErr.isNone
        :: rest ∧ ∀ e ∈ rest, e.isWarn = false ∧ e.isUpload = false := by
  unfold RunBackupBody UploadToS3
  cases env.uploadErr <;> cases env.removeErr <;> simp [Event.isWarn, Event.isUpload]

theorem dumpToFile_trace_props (env : Env) :
    ∀ e ∈ (dumpToFile env).2, e.isUpload = false ∧ e.opensRead = false ∧ e.isWarn = false := by
  unfold dumpToFile dumpToFileBody
  cases env.createErr <;> cases env.cmdErr <;> cases env.runErr <;>
    by_cases h1 : env.stderr.length > 0 <;> by_cases h2 : env.uncompressedCount = 0 <;>
    simp [h1, h2, Event.isUpload, Event.opensRead, Event.isWarn]

theorem dumpToFile_cases (env : Env) :
    (env.createErr = none ∧ env.cmdErr = none ∧ env.runErr = none ∧
      env.uncompressedCount ≠ 0) ∨ ∃ err, (dumpToFile env).1 = .error err := by
  rw [dumpToFile_fst]
  unfold dumpToFileBody
  cases env.createErr <;> cases env.cmdErr <;> cases env.runErr <;>
    by_cases h1 : env.stderr.length > 0 <;> by_cases h2 : env.uncompressedCount = 0 <;>
    simp [h1, h2]

theorem RunBackup_of_dump_error (env : Env) (err : Error)
    (h : (dumpToFile env).1 = .error err) :
    RunBackup env = (some err, runBackupEntry :: (dumpToFile env).2) := by
  unfold RunBackup
  rcases hd : dumpToFile env with ⟨res, trd⟩
  rw [hd] at h
  simp only at h
  subst h
  simp [runBackupEntry]

theorem RunBackup_upload_reached (env : Env) :
    ∀ e ∈ (RunBackup env).2, e.isUpload = true →
      env.createErr = none ∧ env.cmdErr = none ∧ env.runErr = none ∧
        env.uncompressedCount ≠ 0 ∧ env.openErr = none := by
  intro e he hup
  rcases dumpToFile_cases env with ⟨h1, h2, h3, h4⟩ | ⟨err, herr⟩
  · refine ⟨h1, h2, h3, h4, ?_⟩
    cases hopen : env.openErr with
    | none => rfl
    | some err =>
      exfalso
      rw [RunBackup_after_dump env h1 h2 h3 h4, hopen] at he
      simp only [dumpOkTrace, dumpedRecord, List.cons_append, List.nil_append, List.mem_cons,
        List.mem_singleton, List.not_mem_nil, or_false] at he
      rcases he with h | h | h | h | h | h | h | h | h | h
      all_goals rw [h] at hup
      all_goals first | exact Bool.noConfusion hup | skip
      split at hup <;> exact Bool.noConfusion hup
  · exfalso
    rw [RunBackup_of_dump_error env err herr] at he
    simp only [List.mem_cons] at he
    rcases he with h | h
    · rw [h] at hup
      exact Bool.noConfusion hup
    · rw [(dumpToFile_trace_props env e h).1] at hup
      exact Bool.noConfusion hup

theorem RunBackup_upload_event (env : Env) :
    ∀ e ∈ (RunBackup env).2, e.isUpload = true →
      e = Event.s3Upload "application/gzip" (filenameAt env.timeNowUTC) .read (5 * 1024 * 1024)
            env.uploadErr.isNone := by
  intro e he hup
  obtain ⟨h1, h2, h3, h4, h5⟩ := RunBackup_upload_reached env e he hup
  obtain ⟨rest, hrest, hprops⟩ := RunBackupBody_snd env (dumpOf env)
  rw [RunBackup_after_dump env h1 h2 h3 h4, h5] at he
  simp only [hrest, dumpOkTrace, List.cons_append, List.nil_append, List.mem_cons,
    List.mem_append, List.mem_singleton, List.not_mem_nil, or_false] at he
  have hrec : (dumpedRecord (dumpOf env)).isUpload = false := by
    unfold dumpedRecord
    split <;> rfl
  rcases he with h | h | h | h | h | h | h | h | h | h | h | h | h | h
  all_goals first
    | (rw [h] at hup; exact Bool.noConfusion hup)
    | skip
  · rw [h, hrec] at hup; exact Bool.noConfusion hup
  · exact h
  · rw [(hprops e h).2] at hup; exact Bool.noConfusion hup

theorem dumpToFile_ok_eq (env : Env) (dump : dumpInfo) (h : (dumpToFile env).1 = .ok dump) :
    dump = dumpOf env := by
  rcases dumpToFile_cases env with ⟨h1, h2, h3, h4⟩ | ⟨err, herr⟩
  · rw [dumpToFile_ok env h1 h2 h3 h4] at h
    simp only [Except.ok.injEq] at h
    exact h.symm
  · rw [herr] at h
    exact Except.noConfusion h

theorem dumpToFile_header (env : Env) :
    (∀ name modTime, Event.gzipSetHeader name modTime ∈ (dumpToFile env).2 →
      name = basenameAt env.timeNowUTC ∧ modTime = env.timeNowUTC) ∧
    (env.createErr = none → env.cmdErr = none →
      Event.gzipSetHeader (basenameAt env.timeNowUTC) env.timeNowUTC ∈ (dumpToFile env).2) ∧
    (dumpToFile env).2.head? =
      some (Event.osCreate (env.joinTempDir (filenameAt env.timeNowUTC)) env.createErr.isNone) := by
  unfold dumpToFile dumpToFileBody basenameAt filenameAt basenameAt
  cases env.createErr <;> cases env.cmdErr <;> cases env.runErr <;>
    by_cases h1 : env.stderr.length > 0 <;> by_cases h2 : env.uncompressedCount = 0 <;>
    simp [h1, h2]

/-! ## Warnings of a successful dump -/

/-- Counterexample to C5 as stated: the dump succeeds with the non-empty diagnostic text of one
line end, and `RunBackup` completes without any record of level `Warn`; the dump is reported by
the plain record `Database dumped`. -/
theorem RunBackup_blank_stderr_no_warning :
    scenarioBlankStderr.stderr ≠ [] ∧
    scenarioBlankStderr.runErr = none ∧
    1 ≤ scenarioBlankStderr.uncompressedCount ∧
    (RunBackup scenarioBlankStderr).1 = none ∧
    (∀ e ∈ (RunBackup scenarioBlankStderr).2, e.isWarn = false) ∧
    Event.log .Stdout .Info "Database dumped" (dumpedLogAttrs (dumpOf scenarioBlankStderr))
      ∈ (RunBackup scenarioBlankStderr).2 := by
  refine ⟨by decide, rfl, by decide, ?_, ?_, ?_⟩
  · decide
  · decide
  · decide

/-- Claim C5, amended. For every successful dump (file created, command set up, run without
error, at least 1 byte written) with diagnostic text `d`: the `dumpInfo` carries `d` trimmed of
surrounding white space; `RunBackup` writes the record `Database dumped with warnings` of level
`Warn`, carrying the trimmed text, when the trimmed text is non-empty, and the plain record
`Database dumped` when it is empty, in which case the run has no record of level `Warn`; in both
cases the next step is the reopening of the dump file, and when that succeeds the upload is
called with the generated filename. -/
theorem RunBackup_warning_annotation (env : Env)
    (hcreate : env.createErr = none) (hcmd : env.cmdErr = none) (hrun : env.runErr = none)
    (hcount : 1 ≤ env.uncompressedCount) :
    ∃ dump, (dumpToFile env).1 = .ok dump ∧
      dump.stderr = strings.TrimSpace env.stderr ∧
      (strings.TrimSpace env.stderr ≠ [] →
        ∃ pre post, (RunBackup env).2 = pre
          ++ Event.log .Stdout .Warn "Database dumped with warnings"
              (dumpedLogAttrs dump ++ [.String "stderr" (strings.TrimSpace env.stderr)])
          :: Event.osOpen dump.filepath env.openErr.isNone :: post) ∧
      (strings.TrimSpace env.stderr = [] →
        (∃ pre post, (RunBackup env).2 = pre
          ++ Event.log .Stdout .Info "Database dumped" (dumpedLogAttrs dump)
          :: Event.osOpen dump.filepath env.openErr.isNone :: post) ∧
        ∀ e ∈ (RunBackup env).2, e.isWarn = false) ∧
      (env.openErr = none →
        Event.s3Upload "application/gzip" dump.filename .read (5 * 1024 * 1024)
          env.uploadErr.isNone ∈ (RunBackup env).2) := by
  have hc : env.uncompressedCount ≠ 0 := by omega
  have hd := dumpToFile_ok env hcreate hcmd hrun hc
  have hrb := RunBackup_after_dump env hcreate hcmd hrun hc
  obtain ⟨rest, hrest, hw⟩ := RunBackupBody_snd env (dumpOf env)
  have hsplit : ∃ post, (RunBackup env).2 =
      (Event.log .Stdout .Info "Dumping database to disk..." [] :: dumpOkTrace env)
        ++ dumpedRecord (dumpOf env) :: Event.osOpen (dumpOf env).filepath env.openErr.isNone
        :: post ∧ ∀ e ∈ post, e.isWarn = false := by
    rw [hrb]
    cases env.openErr with
    | some err => exact ⟨[], by simp, by simp⟩
    | none =>
      refine ⟨(RunBackupBody env (dumpOf env)).2 ++ [.fileClose .read], by simp, ?_⟩
      intro e he
      rw [hrest] at he
      simp only [List.cons_append, List.mem_cons, List.mem_append, List.mem_singleton,
        List.not_mem_nil, or_false] at he
      rcases he with h | h | h | h
      · rw [h]; rfl
      · rw [h]; rfl
      · exact (hw e h).1
      · rw [h]; rfl
  obtain ⟨post, hpost, hpw⟩ := hsplit
  refine ⟨dumpOf env, by rw [hd], rfl, ?_, ?_, ?_⟩
  · intro hne
    have hne2 : (dumpOf env).stderr ≠ [] := hne
    refine ⟨Event.log .Stdout .Info "Dumping database to disk..." [] :: dumpOkTrace env,
      post, ?_⟩
    rw [hpost]
    simp only [dumpedRecord, hne2, ne_eq, not_false_eq_true, ↓reduceIte]
    rfl
  · intro he
    have he2 : (dumpOf env).stderr = [] := he
    refine ⟨⟨Event.log .Stdout .Info "Dumping database to disk..." [] :: dumpOkTrace env,
      post, ?_⟩, ?_⟩
    · rw [hpost]
      simp only [dumpedRecord, he2, ne_eq, not_true_eq_false, ↓reduceIte]
    · intro e hmem
      rw [hpost] at hmem
      simp only [dumpedRecord, he2, ne_eq, not_true_eq_false, ↓reduceIte, dumpOkTrace,
        List.cons_append, List.nil_append, List.mem_cons, List.mem_append] at hmem
      rcases hmem with h | h | h | h | h | h | h | h | h | h | h
      any_goals (rw [h]; rfl)
      exact hpw e h
  · intro hopen
    rw [hrb, hopen]
    simp only [hrest]
    simp

/-- Witness for C5 (amended): a successful dump with a notice on standard error is reported
by a `Warn` record that carries the trimmed notice. -/
theorem RunBackup_warning_annotation_witness :
    strings.TrimSpace scenarioNotice.stderr = ascii "NOTICE: table skipped" ∧
    ∃ dump pre post, (RunBackup scenarioNotice).2 = pre
      ++ Event.log .Stdout .Warn "Database dumped with warnings"
          (dumpedLogAttrs dump ++ [.String "stderr" (strings.TrimSpace scenarioNotice.stderr)])
      :: Event.osOpen dump.filepath scenarioNotice.openErr.isNone :: post :=
  ⟨by decide,
    let ⟨dump, _, _, h, _⟩ :=
      RunBackup_warning_annotation scenarioNotice rfl rfl rfl (by decide)
    let ⟨pre, post, hp⟩ := h (by decide)
    ⟨dump, pre, post, hp⟩⟩

/-! ## Removal of the dump file -/

/-- Claim C3, evaluated. After a failed upload `RunBackup` returns the error of the upload, the
dump file was created and no `os.Remove` was called, so the file is still on disk; the same
holds when the file cannot be reopened and when the command set-up fails. The sibling paths
remove it: after the failed dump of scenario B, after the dump of 0 bytes and after the
successful run of scenario A the file is gone. -/
theorem RunBackup_leaves_file_on_early_return :
    ((RunBackup scenarioUploadFails).1 = some (errors.New (ascii "operation error S3: PutObject")) ∧
      Event.osCreate samplePath true ∈ (RunBackup scenarioUploadFails).2 ∧
      (∀ ok, Event.osRemove samplePath ok ∉ (RunBackup scenarioUploadFails).2) ∧
      onDisk samplePath false (RunBackup scenarioUploadFails).2 = true) ∧
    ((RunBackup scenarioOpenFails).1 = some (errors.New (ascii "open: too many open files")) ∧
      Event.osCreate samplePath true ∈ (RunBackup scenarioOpenFails).2 ∧
      onDisk samplePath false (RunBackup scenarioOpenFails).2 = true) ∧
    ((RunBackup scenarioCmdErr).1 = some (errors.New (ascii "exec: pg_dump: not found")) ∧
      Event.osCreate samplePath true ∈ (RunBackup scenarioCmdErr).2 ∧
      onDisk samplePath false (RunBackup scenarioCmdErr).2 = true) ∧
    (Event.osCreate samplePath true ∈ (RunBackup scenarioB).2 ∧
      onDisk samplePath false (RunBackup scenarioB).2 = false) ∧
    (Event.osCreate samplePath true ∈ (RunBackup scenarioZeroBytes).2 ∧
      onDisk samplePath false (RunBackup scenarioZeroBytes).2 = false) ∧
    (Event.osCreate samplePath true ∈ (RunBackup scenarioA).2 ∧
      onDisk samplePath false (RunBackup scenarioA).2 = false) := by
  refine ⟨⟨by decide, by decide, ?_, by decide⟩, ⟨by decide, by decide, by decide⟩,
    ⟨by decide, by decide, by decide⟩, ⟨by decide, by decide⟩, ⟨by decide, by decide⟩,
    ⟨by decide, by decide⟩⟩
  intro ok
  cases ok <;> decide

/-! ## Exit code and gating of the pipeline -/

theorem mem_pre_of_split {α : Type} (P : α → Bool) {a rest pre post : List α} {x e : α}
    (hx : x ∈ a) (ha : ∀ y ∈ a, P y = false) (he : P e = true)
    (hs : a ++ rest = pre ++ e :: post) : x ∈ pre := by
  rcases List.append_eq_append_iff.mp hs with ⟨a2, h1, _⟩ | ⟨c2, h1, h2⟩
  · rw [h1]
    exact List.mem_append_left _ hx
  · cases c2 with
    | nil =>
      rw [List.append_nil] at h1
      rw [← h1]
      exact hx
    | cons d c3 =>
      exfalso
      simp only [List.cons_append, List.cons.injEq] at h2
      have hmem : e ∈ a := by
        rw [h1, h2.1]
        simp
      rw [ha e hmem] at he
      exact Bool.false_ne_true he

theorem RunBackup_trace_no_skipRecord (env : Env) : skipRecord ∉ (RunBackup env).2 := by
  intro hmem
  rcases dumpToFile_cases env with ⟨h1, h2, h3, h4⟩ | ⟨err, herr⟩
  · obtain ⟨rest, hrest, hprops⟩ := RunBackupBody_snd env (dumpOf env)
    have hrec : skipRecord ≠ dumpedRecord (dumpOf env) := by
      unfold dumpedRecord skipRecord
      split <;> simp
    rw [RunBackup_after_dump env h1 h2 h3 h4] at hmem
    cases hopen : env.openErr with
    | some e2 =>
      rw [hopen] at hmem
      simp only [dumpOkTrace, List.cons_append, List.nil_append, List.mem_cons,
        List.mem_singleton, List.not_mem_nil, or_false] at hmem
      rcases hmem with h | h | h | h | h | h | h | h | h | h
      all_goals first
        | exact hrec h
        | (simp [skipRecord] at h)
    | none =>
      rw [hopen] at hmem
      simp only [hrest, dumpOkTrace, List.cons_append, List.nil_append, List.mem_cons,
        List.mem_append, List.mem_singleton, List.not_mem_nil, or_false] at hmem
      rcases hmem with h | h | h | h | h | h | h | h | h | h | h | h | h | h
      all_goals first
        | exact hrec h
        | exact Bool.noConfusion (hprops _ h).1
        | (simp [skipRecord] at h)
  · rw [RunBackup_of_dump_error env err herr] at hmem
    simp only [List.mem_cons] at hmem
    rcases hmem with h | h
    · simp [skipRecord, runBackupEntry] at h
    · exact Bool.noConfusion (dumpToFile_trace_props env _ h).2.2

/-- Claim C6. For every run of the process (package initialisation of `config`, then `main`):
the exit code is 0 or 1; it is 0 exactly when the run was skipped (configuration loaded and
the run-on-start flag disabled, which is when the skip record is written) or the backup
completed (configuration loaded, flag enabled, bucket access check and `RunBackup` both
without error); it is 1 when the configuration errors collected are not empty, which is the
case as soon as one `env.Parse` returns a plain error or an aggregate of at least one error,
when the bucket access check failed, and when `RunBackup` returned an error. -/
theorem process_exit_code (env : Env) :
    ((process env).1 = 0 ∨ (process env).1 = 1) ∧
    ((process env).1 = 0 ↔
      (config.collect [] [env.parseAWS, env.parseBackup] = [] ∧ env.runOnStart = false) ∨
      (config.collect [] [env.parseAWS, env.parseBackup] = [] ∧ env.runOnStart = true ∧
        (CheckBucketAccess env).1 = none ∧ (RunBackup env).1 = none)) ∧
    (skipRecord ∈ (process env).2 ↔
      config.collect [] [env.parseAWS, env.parseBackup] = [] ∧ env.runOnStart = false) ∧
    (config.collect [] [env.parseAWS, env.parseBackup] ≠ [] → (process env).1 = 1) ∧
    (∀ p ∈ [env.parseAWS, env.parseBackup],
      ((∃ err, p = .other err) ∨ (∃ err errs, p = .aggregate (err :: errs))) →
      (process env).1 = 1) ∧
    (config.collect [] [env.parseAWS, env.parseBackup] = [] → env.runOnStart = true →
      (CheckBucketAccess env).1 ≠ none → (process env).1 = 1) ∧
    (config.collect [] [env.parseAWS, env.parseBackup] = [] → env.runOnStart = true →
      (CheckBucketAccess env).1 = none → (RunBackup env).1 ≠ none → (process env).1 = 1) := by
  have hskip := RunBackup_trace_no_skipRecord env
  have hparse : ∀ p ∈ [env.parseAWS, env.parseBackup],
      ((∃ err, p = .other err) ∨ (∃ err errs, p = .aggregate (err :: errs))) →
      config.collect [] [env.parseAWS, env.parseBackup] ≠ [] := by
    intro p hp hbad
    simp only [List.mem_cons, List.mem_singleton, List.not_mem_nil, or_false] at hp
    cases h1 : env.parseAWS <;> cases h2 : env.parseBackup <;>
      rw [h1, h2] at hp <;> rcases hp with rfl | rfl <;>
      rcases hbad with ⟨err, hb⟩ | ⟨err, errs, hb⟩ <;>
      simp_all [config.collect]
  suffices hmain :
      ((process env).1 = 0 ∨ (process env).1 = 1) ∧
      ((process env).1 = 0 ↔
        (config.collect [] [env.parseAWS, env.parseBackup] = [] ∧ env.runOnStart = false) ∨
        (config.collect [] [env.parseAWS, env.parseBackup] = [] ∧ env.runOnStart = true ∧
          (CheckBucketAccess env).1 = none ∧ (RunBackup env).1 = none)) ∧
      (skipRecord ∈ (process env).2 ↔
        config.collect [] [env.parseAWS, env.parseBackup] = [] ∧ env.runOnStart = false) ∧
      (config.collect [] [env.parseAWS, env.parseBackup] ≠ [] → (process env).1 = 1) ∧
      (config.collect [] [env.parseAWS, env.parseBackup] = [] → env.runOnStart = true →
        (CheckBucketAccess env).1 ≠ none → (process env).1 = 1) ∧
      (config.collect [] [env.parseAWS, env.parseBackup] = [] → env.runOnStart = true →
        (CheckBucketAccess env).1 = none → (RunBackup env).1 ≠ none → (process env).1 = 1) by
    obtain ⟨a, b, c, d, e, f⟩ := hmain
    exact ⟨a, b, c, d, fun p hp hbad => d (hparse p hp hbad), e, f⟩
  unfold process config.init main CheckBucketAccess
  by_cases hcfg : config.collect [] [env.parseAWS, env.parseBackup] = []
  · have hlen : ¬ (config.collect [] [env.parseAWS, env.parseBackup]).length > 0 := by
      rw [hcfg]; decide
    cases hflag : env.runOnStart
    · simp [hcfg, skipRecord]
    · cases hcheck : env.listObjectsErr with
      | some err => simp [hcfg, skipRecord]
      | none =>
        rcases hrb : RunBackup env with ⟨res, trb⟩
        rw [hrb] at hskip
        cases res with
        | none =>
          simp only [hcfg, List.length_nil, gt_iff_lt, lt_self_iff_false, ↓reduceIte,
            Bool.not_true, Bool.false_eq_true, List.nil_append, List.cons_append, true_or,
            true_and, and_self, or_true, List.mem_cons, List.mem_append, hskip,
            ne_eq, not_true_eq_false, false_implies, implies_true, and_true, iff_true,
            Bool.true_eq_false, and_false, or_false, false_iff, not_or, iff_false]
          refine ⟨?_, ?_, ?_⟩ <;> simp [skipRecord]
        | some err =>
          simp only [hcfg, List.length_nil, gt_iff_lt, lt_self_iff_false, ↓reduceIte,
            Bool.not_true, Bool.false_eq_true, List.nil_append, List.cons_append,
            List.mem_cons, List.mem_append, hskip]
          simp [skipRecord]
  · have hlen : (config.collect [] [env.parseAWS, env.parseBackup]).length > 0 :=
      List.length_pos.mpr hcfg
    simp [hcfg, hlen, skipRecord]

/-- Witness for C6: scenario B ends with exit code 1, the skipped run and scenario A with 0. -/
theorem process_exit_code_witness :
    (process scenarioB).1 = 1 ∧ (process scenarioSkip).1 = 0 ∧ (process scenarioA).1 = 0 :=
  ⟨(process_exit_code scenarioB).2.2.2.2.2.2 rfl rfl rfl (by decide),
    (process_exit_code scenarioSkip).2.1.mpr (Or.inl ⟨rfl, rfl⟩),
    (process_exit_code scenarioA).2.1.mpr (Or.inr ⟨rfl, rfl, rfl, by decide⟩)⟩

/-- Claim C7. For every run of `main`: an event that runs the dump process, or the first
record of `RunBackup`, occurs only when the run-on-start flag is enabled and the bucket access
check has succeeded earlier in the run; when the flag is disabled there is no storage call
(neither the access check nor an upload), no run of the dump process and no invocation of
`RunBackup`; when the access check fails the dump process is never run and nothing is
uploaded. -/
theorem main_gates_pipeline (env : Env) :
    (∀ pre e post, (main env).2 = pre ++ e :: post →
      (e.isCmdRun = true ∨ e = runBackupEntry) →
      env.runOnStart = true ∧ env.listObjectsErr = none ∧
        Event.s3ListObjectsV2 0 true ∈ pre) ∧
    (env.runOnStart = false →
      ∀ e ∈ (main env).2, e.isStorage = false ∧ e.isCmdRun = false ∧ e ≠ runBackupEntry) ∧
    (env.listObjectsErr ≠ none →
      ∀ e ∈ (main env).2, e.isCmdRun = false ∧ e.isUpload = false ∧ e ≠ runBackupEntry) := by
  refine ⟨?_, ?_, ?_⟩
  · intro pre e post hsplit he
    have hP : (fun x : Event => x.isCmdRun || decide (x = runBackupEntry)) e = true := by
      rcases he with h | h
      · simp [h]
      · simp [h]
    cases hflag : env.runOnStart with
    | false =>
      exfalso
      have hmem : e ∈ (main env).2 := by rw [hsplit]; simp
      simp only [main, hflag, Bool.not_false, ↓reduceIte, List.mem_cons, List.mem_singleton,
        List.not_mem_nil, or_false] at hmem
      rcases hmem with h | h <;> rw [h] at hP <;> revert hP <;> decide
    | true =>
      cases hcheck : env.listObjectsErr with
      | some err =>
        exfalso
        have hmem : e ∈ (main env).2 := by rw [hsplit]; simp
        simp only [main, hflag, CheckBucketAccess, hcheck, Bool.not_true, Bool.false_eq_true,
          ↓reduceIte, List.cons_append, List.nil_append, List.mem_cons, List.mem_singleton,
          List.not_mem_nil, or_false] at hmem
        rcases hmem with h | h | h | h <;> rw [h] at hP <;> revert hP <;>
          simp [Event.isCmdRun, runBackupEntry]
      | none =>
        refine ⟨rfl, rfl, ?_⟩
        have htr : ∃ rest, (main env).2 =
            [Event.log .Stdout .Info "Checking access to bucket..." [],
             Event.s3ListObjectsV2 0 true,
             Event.log .Stdout .Info "Access to bucket confirmed" [],
             Event.log .Stdout .Info "Starting backup..." []] ++ rest := by
          simp only [main, hflag, CheckBucketAccess, hcheck]
          rcases RunBackup env with ⟨res, trb⟩
          cases res with
          | none => exact ⟨trb, by simp⟩
          | some err =>
            exact ⟨trb ++ [Event.log .Stderr .Error "Error while running backup.. Exiting.."
              [.ErrAttr err], .osExit 1], by simp⟩
        obtain ⟨rest, hrest⟩ := htr
        rw [hsplit] at hrest
        refine mem_pre_of_split (fun x : Event => x.isCmdRun || decide (x = runBackupEntry))
          (by simp) ?_ hP hrest.symm
        intro y hy
        simp only [List.mem_cons, List.mem_singleton, List.not_mem_nil, or_false] at hy
        rcases hy with h | h | h | h <;> rw [h] <;> decide
  · intro hflag e hmem
    simp only [main, hflag, Bool.not_false, ↓reduceIte, List.mem_cons, List.mem_singleton,
      List.not_mem_nil, or_false] at hmem
    rcases hmem with h | h <;> rw [h] <;> decide
  · intro hcheck e hmem
    cases hflag : env.runOnStart with
    | false =>
      simp only [main, hflag, Bool.not_false, ↓reduceIte, List.mem_cons, List.mem_singleton,
        List.not_mem_nil, or_false] at hmem
      rcases hmem with h | h <;> rw [h] <;> decide
    | true =>
      cases hc : env.listObjectsErr with
      | none => exact absurd hc hcheck
      | some err =>
        simp only [main, hflag, CheckBucketAccess, hc, Bool.not_true, Bool.false_eq_true,
          ↓reduceIte, List.cons_append, List.nil_append, List.mem_cons, List.mem_singleton,
          List.not_mem_nil, or_false] at hmem
        rcases hmem with h | h | h | h <;> rw [h] <;>
          simp [Event.isCmdRun, Event.isUpload, runBackupEntry]

/-- Witness for C7: in scenario A the dump process runs, after the successful access check;
with the flag disabled, and with access denied, it does not run. -/
theorem main_gates_pipeline_witness :
    (∃ pre args post, (main scenarioA).2 = pre ++ Event.cmdRun "pg_dump" args true :: post ∧
      Event.s3ListObjectsV2 0 true ∈ pre) ∧
    (∀ e ∈ (main scenarioSkip).2, e.isStorage = false ∧ e.isCmdRun = false ∧
      e ≠ runBackupEntry) ∧
    (∀ e ∈ (main scenarioNoAccess).2, e.isCmdRun = false ∧ e.isUpload = false ∧
      e ≠ runBackupEntry) :=
  ⟨⟨(main scenarioA).2.take 8, pgDumpArgs scenarioA, (main scenarioA).2.drop 9, by decide,
      ((main_gates_pipeline scenarioA).1 ((main scenarioA).2.take 8)
        (Event.cmdRun "pg_dump" (pgDumpArgs scenarioA) true) ((main scenarioA).2.drop 9)
        (by decide) (Or.inl rfl)).2.2⟩,
    (main_gates_pipeline scenarioSkip).2.1 rfl,
    (main_gates_pipeline scenarioNoAccess).2.2 (by decide)⟩

/-! ## Handles of the dump file -/

theorem neverBothOpen_sound (tr : List Event) (w r : Bool)
    (h : neverBothOpen w r tr = true) :
    ∀ pre, pre <+: tr → ¬ (isOpen .write w pre = true ∧ isOpen .read r pre = true) := by
  induction tr generalizing w r with
  | nil =>
    intro pre hpre
    have hnil : pre = [] := List.prefix_nil.mp hpre
    subst hnil
    simp only [neverBothOpen, Bool.not_eq_true', Bool.and_eq_false_imp] at h
    simp only [isOpen, List.foldl_nil]
    intro hboth
    have := h hboth.1
    rw [hboth.2] at this
    exact Bool.noConfusion this
  | cons e rest ih =>
    intro pre hpre
    simp only [neverBothOpen, Bool.and_eq_true, Bool.not_eq_true'] at h
    cases pre with
    | nil =>
      simp only [isOpen, List.foldl_nil]
      intro hboth
      have h1 := h.1
      rw [hboth.1, hboth.2] at h1
      exact Bool.noConfusion h1
    | cons d pre2 =>
      obtain ⟨hd, hp2⟩ := List.cons_prefix_cons.mp hpre
      subst hd
      have := ih _ _ h.2 pre2 hp2
      simpa only [isOpen, List.foldl_cons] using this

theorem neverBothOpen_of_no_read (tr : List Event) (w : Bool)
    (h : ∀ e ∈ tr, e.opensRead = false) : neverBothOpen w false tr = true := by
  induction tr generalizing w with
  | nil => simp [neverBothOpen]
  | cons e rest ih =>
    have he : stepOpen .read false e = false := by
      have h1 := h e (List.mem_cons_self _ _)
      cases e <;> first | rfl | skip
      case osOpen p ok => cases ok <;> first | rfl | exact Bool.noConfusion h1
      case osCreate p ok => cases ok <;> rfl
      case fileClose h2 => cases h2 <;> rfl
    simp only [neverBothOpen, Bool.and_false, Bool.not_false, Bool.true_and, he]
    exact ih _ (fun x hx => h x (List.mem_cons_of_mem _ hx))

theorem RunBackup_neverBothOpen (env : Env) :
    neverBothOpen false false (RunBackup env).2 = true := by
  rcases dumpToFile_cases env with ⟨h1, h2, h3, h4⟩ | ⟨err, herr⟩
  · rw [RunBackup_after_dump env h1 h2 h3 h4]
    unfold RunBackupBody UploadToS3 dumpOkTrace dumpedRecord
    cases env.openErr <;> cases env.uploadErr <;> cases env.removeErr <;>
      by_cases h5 : (dumpOf env).stderr = [] <;>
      simp [h5, neverBothOpen, stepOpen]
  · rw [RunBackup_of_dump_error env err herr]
    apply neverBothOpen_of_no_read
    intro e he
    simp only [List.mem_cons] at he
    rcases he with h | h
    · rw [h]; rfl
    · exact (dumpToFile_trace_props env e h).2.1

theorem split_at_unique {α : Type} (P : α → Bool) {a b pre post : List α} {x e : α}
    (ha : ∀ y ∈ a, P y = false) (hb : ∀ y ∈ b, P y = false) (he : P e = true)
    (hs : a ++ x :: b = pre ++ e :: post) : pre = a ∧ e = x ∧ post = b := by
  induction a generalizing pre with
  | nil =>
    cases pre with
    | nil =>
      simp only [List.nil_append, List.cons.injEq] at hs
      exact ⟨rfl, hs.1.symm, hs.2.symm⟩
    | cons z pre2 =>
      exfalso
      simp only [List.nil_append, List.cons_append, List.cons.injEq] at hs
      have hmem : e ∈ b := by rw [hs.2]; simp
      rw [hb e hmem] at he
      exact Bool.noConfusion he
  | cons y a2 ih =>
    cases pre with
    | nil =>
      exfalso
      simp only [List.cons_append, List.nil_append, List.cons.injEq] at hs
      have hy := ha y (List.mem_cons_self _ _)
      rw [hs.1, he] at hy
      exact Bool.noConfusion hy
    | cons z pre2 =>
      simp only [List.cons_append, List.cons.injEq] at hs
      obtain ⟨h1, h2, h3⟩ := ih (fun w hw => ha w (List.mem_cons_of_mem _ hw)) hs.2
      exact ⟨by rw [hs.1, h1], h2, h3⟩

/-- Claim C8. For every execution of `RunBackup` that reaches the upload: `dumpToFile` has
returned a `dumpInfo`, and the upload event is the call with its filename as key, the read
handle as body and the content type `application/gzip`; the events before it are `a`, then the
successful `os.Open` of the path of the dump, then `b`, where `a` contains, in this order, the
creation of the file at that path, the flush of the compressor, its close and the close of the
write handle, and leaves the write handle closed; when the upload is called the write handle
is closed and the read handle is open. In every execution, reaching the upload or not, no
state of the run has the write handle and the read handle open together. -/
theorem RunBackup_single_writer_then_reader (env : Env) :
    (∀ pre e post, (RunBackup env).2 = pre ++ e :: post → e.isUpload = true →
      ∃ dump, (dumpToFile env).1 = .ok dump ∧
        e = Event.s3Upload "application/gzip" dump.filename .read (5 * 1024 * 1024)
              env.uploadErr.isNone ∧
        ∃ a b, pre = a ++ Event.osOpen dump.filepath true :: b ∧
          List.Sublist
            [Event.osCreate dump.filepath true, Event.gzipFlush, Event.gzipClose,
              Event.fileClose .write] a ∧
          isOpen .write false a = false ∧
          isOpen .write false pre = false ∧ isOpen .read false pre = true) ∧
    (∀ pre, pre <+: (RunBackup env).2 →
      ¬ (isOpen .write false pre = true ∧ isOpen .read false pre = true)) := by
  refine ⟨?_, neverBothOpen_sound _ _ _ (RunBackup_neverBothOpen env)⟩
  intro pre e post hsplit hup
  have hmem : e ∈ (RunBackup env).2 := by rw [hsplit]; simp
  obtain ⟨h1, h2, h3, h4, h5⟩ := RunBackup_upload_reached env e hmem hup
  obtain ⟨rest, hrest, hprops⟩ := RunBackupBody_snd env (dumpOf env)
  have htr : (RunBackup env).2 =
      (runBackupEntry :: dumpOkTrace env ++ [dumpedRecord (dumpOf env),
          Event.osOpen (dumpOf env).filepath true,
          Event.log .Stdout .Info "Uploading backup to S3..." []])
        ++ Event.s3Upload "application/gzip" (dumpOf env).filename .read (5 * 1024 * 1024)
            env.uploadErr.isNone
        :: (rest ++ [Event.fileClose .read]) := by
    rw [RunBackup_after_dump env h1 h2 h3 h4, h5]
    simp only [hrest]
    simp [runBackupEntry]
  rw [htr] at hsplit
  have hrec : (dumpedRecord (dumpOf env)).isUpload = false := by
    unfold dumpedRecord
    split <;> rfl
  have hrecw : ∀ h st, stepOpen h st (dumpedRecord (dumpOf env)) = st := by
    intro h st
    unfold dumpedRecord
    split <;> rfl
  obtain ⟨hpre, he, _⟩ := split_at_unique Event.isUpload (by
      intro y hy
      simp only [dumpOkTrace, List.cons_append, List.nil_append, List.mem_cons,
        List.mem_singleton, List.not_mem_nil, or_false] at hy
      rcases hy with h | h | h | h | h | h | h | h | h | h | h
      all_goals first | (rw [h]; rfl) | skip
      rw [h]; exact hrec) (by
      intro y hy
      simp only [List.mem_append, List.mem_singleton] at hy
      rcases hy with h | h
      · exact (hprops y h).2
      · rw [h]; rfl) hup hsplit
  refine ⟨dumpOf env, by rw [dumpToFile_ok env h1 h2 h3 h4], he,
    runBackupEntry :: dumpOkTrace env ++ [dumpedRecord (dumpOf env)],
    [Event.log .Stdout .Info "Uploading backup to S3..." []], ?_, ?_, ?_, ?_, ?_⟩
  · rw [hpre]; simp
  · simp only [dumpOkTrace, runBackupEntry, List.cons_append, List.nil_append]
    exact .cons _ (.cons₂ _ (.cons _ (.cons _ (.cons _ (.cons₂ _ (.cons₂ _ (.cons₂ _
      (.cons _ .slnil))))))))
  · simp only [isOpen, dumpOkTrace, runBackupEntry, List.cons_append, List.nil_append,
      List.foldl_cons, List.foldl_nil, hrecw]
    rfl
  · rw [hpre]
    simp only [isOpen, dumpOkTrace, runBackupEntry, List.cons_append, List.nil_append,
      List.foldl_cons, List.foldl_nil, hrecw]
    rfl
  · rw [hpre]
    simp only [isOpen, dumpOkTrace, runBackupEntry, List.cons_append, List.nil_append,
      List.foldl_cons, List.foldl_nil, hrecw]
    rfl

/-- Witness for C8: scenario A reaches the upload, with the key computed from the start
instant, after the file was written, closed and reopened. -/
theorem RunBackup_single_writer_then_reader_witness :
    ∃ pre post, (RunBackup scenarioA).2 = pre
        ++ Event.s3Upload "application/gzip"
            (ascii "Backup_Sat_09_Mar_2024_14-05-07_UTC.dump.gz") .read (5 * 1024 * 1024) true
        :: post ∧
      ∃ dump a b, (dumpToFile scenarioA).1 = .ok dump ∧
        pre = a ++ Event.osOpen dump.filepath true :: b ∧ isOpen .write false a = false :=
  ⟨(RunBackup scenarioA).2.take 11, (RunBackup scenarioA).2.drop 12, by decide,
    let ⟨dump, hd, _, a, b, hab, _, hw, _⟩ :=
      (RunBackup_single_writer_then_reader scenarioA).1 ((RunBackup scenarioA).2.take 11)
        (Event.s3Upload "application/gzip"
          (ascii "Backup_Sat_09_Mar_2024_14-05-07_UTC.dump.gz") .read (5 * 1024 * 1024) true)
        ((RunBackup scenarioA).2.drop 12) (by decide) rfl
    ⟨dump, a, b, hd, hab, hw⟩⟩

/-! ## Naming of the dump file -/

theorem layout_chunks :
    nextStdChunk (ascii "Mon_02_Jan_2006_15-04-05_MST")
      = ([], some .stdWeekDay, ascii "_02_Jan_2006_15-04-05_MST") ∧
    nextStdChunk (ascii "_02_Jan_2006_15-04-05_MST")
      = (ascii "_", some .stdZeroDay, ascii "_Jan_2006_15-04-05_MST") ∧
    nextStdChunk (ascii "_Jan_2006_15-04-05_MST")
      = (ascii "_", some .stdMonth, ascii "_2006_15-04-05_MST") ∧
    nextStdChunk (ascii "_2006_15-04-05_MST")
      = (ascii "_", some .stdLongYear, ascii "_15-04-05_MST") ∧
    nextStdChunk (ascii "_15-04-05_MST")
      = (ascii "_", some .stdHour, ascii "-04-05_MST") ∧
    nextStdChunk (ascii "-04-05_MST")
      = (ascii "-", some .stdZeroMinute, ascii "-05_MST") ∧
    nextStdChunk (ascii "-05_MST")
      = (ascii "-", some .stdZeroSecond, ascii "_MST") ∧
    nextStdChunk (ascii "_MST")
      = (ascii "_", some .stdTZ, []) := by
  decide

theorem format_layout (t : Time) :
    t.Format (ascii "Mon_02_Jan_2006_15-04-05_MST") =
      (Weekday.String t.weekday).take 3 ++ ascii "_" ++ appendInt t.day 2 ++ ascii "_"
        ++ (Month.String t.month).take 3 ++ ascii "_" ++ appendInt t.year 4 ++ ascii "_"
        ++ appendInt t.hour 2 ++ ascii "-" ++ appendInt t.minute 2 ++ ascii "-"
        ++ appendInt t.second 2 ++ ascii "_" ++ ascii "UTC" := by
  obtain ⟨c1, c2, c3, c4, c5, c6, c7, c8⟩ := layout_chunks
  have hlen : (ascii "Mon_02_Jan_2006_15-04-05_MST").length = 28 := by decide
  have n1 : ascii "Mon_02_Jan_2006_15-04-05_MST" ≠ [] := by decide
  have n2 : ascii "_02_Jan_2006_15-04-05_MST" ≠ [] := by decide
  have n3 : ascii "_Jan_2006_15-04-05_MST" ≠ [] := by decide
  have n4 : ascii "_2006_15-04-05_MST" ≠ [] := by decide
  have n5 : ascii "_15-04-05_MST" ≠ [] := by decide
  have n6 : ascii "-04-05_MST" ≠ [] := by decide
  have n7 : ascii "-05_MST" ≠ [] := by decide
  have n8 : ascii "_MST" ≠ [] := by decide
  unfold Time.Format
  rw [hlen]
  simp only [Time.appendFormat, n1, n2, n3, n4, n5, n6, n7, n8, ↓reduceIte, c1, c2, c3, c4, c5,
    c6, c7, c8, Time.appendStd, List.nil_append, List.append_nil, List.append_assoc]

theorem nextStdChunkFrom_shorter (acc l p : GoString) (std : Std) (suf : GoString)
    (h : nextStdChunkFrom acc l = (p, some std, suf)) : suf.length < l.length := by
  induction l generalizing acc with
  | nil => simp [nextStdChunkFrom] at h
  | cons c rest ih =>
    unfold nextStdChunkFrom at h
    split at h
    · simp only [Prod.mk.injEq, Option.some.injEq] at h
      rw [← h.2.2]
      simp only [List.length_drop, List.length_cons]
      omega
    · have := ih _ h
      simp only [List.length_cons]
      omega

theorem appendFormat_fuel (t : Time) (n m : Nat) (layout : GoString)
    (hn : layout.length ≤ n) (hm : layout.length ≤ m) :
    t.appendFormat n layout = t.appendFormat m layout := by
  induction n generalizing m layout with
  | zero =>
    have hnil : layout = [] := List.length_eq_zero.mp (Nat.le_zero.mp hn)
    subst hnil
    cases m <;> simp [Time.appendFormat]
  | succ n ih =>
    cases m with
    | zero =>
      have hnil : layout = [] := List.length_eq_zero.mp (Nat.le_zero.mp hm)
      subst hnil
      simp [Time.appendFormat]
    | succ m =>
      unfold Time.appendFormat
      by_cases hl : layout = []
      · simp [hl]
      · simp only [hl, ↓reduceIte]
        rcases hc : nextStdChunk layout with ⟨pre, std, suf⟩
        cases std with
        | none => rfl
        | some std =>
          have hlt := nextStdChunkFrom_shorter [] layout pre std suf hc
          simp only
          rw [ih m suf (by omega) (by omega)]

theorem appendInt_two (n : Nat) (h : n < 100) : appendInt (n : Int) 2 = twoDigits n := by
  have hneg : ¬ ((n : Int) < 0) := by omega
  simp [appendInt, twoDigits, hneg, h]

theorem appendInt_four (y : Int) (h0 : 0 ≤ y) (h1 : y ≤ 9999) :
    appendInt y 4 = fourDigits y.toNat := by
  have hneg : ¬ (y < 0) := by omega
  have habs : y.natAbs = y.toNat := by omega
  have hlt : y.toNat < 10000 := by omega
  generalize y.toNat = n at habs hlt
  have e1 : n / 100 / 10 = n / 1000 := by omega
  have e2 : n % 100 / 10 = n / 10 % 10 := by omega
  have e3 : n % 100 % 10 = n % 10 := by omega
  simp [appendInt, hneg, habs, hlt, fourDigits, e1, e2, e3]

theorem weekday_take (w : Nat) (h : w ≤ 6) :
    (Weekday.String w).take 3 = ascii (weekdayAbbrev.getD w "") := by
  interval_cases w <;> decide

theorem month_take (m : Nat) (h1 : 1 ≤ m) (h2 : m ≤ 12) :
    (Month.String m).take 3 = ascii (monthAbbrev.getD (m - 1) "") := by
  interval_cases m <;> decide

theorem filenameAt_eq_spec (t : Time) (h : t.inRange) : filenameAt t = specFilename t := by
  obtain ⟨hy0, hy1, hm0, hm1, hd0, hd1, hh, hmi, hs, hw⟩ := h
  unfold filenameAt basenameAt specFilename
  rw [format_layout, weekday_take _ hw, month_take _ hm0 hm1, appendInt_four _ hy0 hy1,
    appendInt_two _ (by omega), appendInt_two _ (by omega), appendInt_two _ (by omega),
    appendInt_two _ (by omega)]
  have htail : ascii "_UTC.dump.gz" = ascii "_" ++ ascii "UTC" ++ ascii ".dump" ++ ascii ".gz" := by
    decide
  rw [htail]
  simp only [List.append_assoc]

theorem twoDigits_inj (a b : Nat) (h : twoDigits a = twoDigits b) : a = b := by
  simp only [twoDigits, List.cons.injEq, Nat.add_left_cancel_iff, and_true] at h
  omega

theorem fourDigits_inj (a b : Nat) (ha : a < 10000) (hb : b < 10000)
    (h : fourDigits a = fourDigits b) : a = b := by
  simp only [fourDigits, List.cons.injEq, Nat.add_left_cancel_iff, and_true] at h
  omega

theorem monthAbbrev_inj (a b : Nat) (ha1 : 1 ≤ a) (ha2 : a ≤ 12) (hb1 : 1 ≤ b) (hb2 : b ≤ 12)
    (h : ascii (monthAbbrev.getD (a - 1) "") = ascii (monthAbbrev.getD (b - 1) "")) : a = b := by
  interval_cases a <;> interval_cases b <;> first | rfl | exact absurd h (by decide)

theorem weekdayAbbrev_length (w : Nat) (h : w ≤ 6) :
    (ascii (weekdayAbbrev.getD w "")).length = 3 := by
  interval_cases w <;> rfl

theorem monthAbbrev_length (m : Nat) (h1 : 1 ≤ m) (h2 : m ≤ 12) :
    (ascii (monthAbbrev.getD (m - 1) "")).length = 3 := by
  interval_cases m <;> rfl

theorem specFilename_inj (t u : Time) (ht : t.inRange) (hu : u.inRange)
    (h : specFilename t = specFilename u) : t.secondOf = u.secondOf := by
  obtain ⟨ty0, ty1, tm0, tm1, td0, td1, th, tmi, ts, tw⟩ := ht
  obtain ⟨uy0, uy1, um0, um1, ud0, ud1, uh, umi, us, uw⟩ := hu
  unfold specFilename at h
  simp only [List.append_assoc] at h
  have h := List.append_cancel_left h
  obtain ⟨-, h⟩ := List.append_inj h
    (by rw [weekdayAbbrev_length _ tw, weekdayAbbrev_length _ uw])
  have h := List.append_cancel_left h
  obtain ⟨hday, h⟩ := List.append_inj h rfl
  have h := List.append_cancel_left h
  obtain ⟨hmonth, h⟩ := List.append_inj h
    (by rw [monthAbbrev_length _ tm0 tm1, monthAbbrev_length _ um0 um1])
  have h := List.append_cancel_left h
  obtain ⟨hyear, h⟩ := List.append_inj h rfl
  have h := List.append_cancel_left h
  obtain ⟨hhour, h⟩ := List.append_inj h rfl
  have h := List.append_cancel_left h
  obtain ⟨hminute, h⟩ := List.append_inj h rfl
  have h := List.append_cancel_left h
  obtain ⟨hsecond, -⟩ := List.append_inj h rfl
  have e1 := twoDigits_inj _ _ hday
  have e2 := monthAbbrev_inj _ _ tm0 tm1 um0 um1 hmonth
  have e3 := fourDigits_inj _ _ (by omega) (by omega) hyear
  have e4 := twoDigits_inj _ _ hhour
  have e5 := twoDigits_inj _ _ hminute
  have e6 := twoDigits_inj _ _ hsecond
  have e7 : t.year = u.year := by omega
  simp only [Time.secondOf, e1, e2, e4, e5, e6, e7]

theorem filenameAt_sameSecond (t u : Time) (h : t.sameSecond u) :
    basenameAt t = basenameAt u ∧ filenameAt t = filenameAt u := by
  obtain ⟨h1, h2, h3, h4, h5, h6, h7⟩ := h
  unfold filenameAt basenameAt
  rw [format_layout, format_layout, h1, h2, h3, h4, h5, h6, h7]
  exact ⟨rfl, rfl⟩

/-- Claim C9. For every start instant whose UTC calendar fields are in range: the file that
`dumpToFile` creates is `Backup_W_DD_Mon_YYYY_HH-MM-SS_UTC.dump.gz` in the temporary directory
(three-letter weekday, two-digit day, three-letter month, four-digit year, two-digit hour,
minute and second); a returned `dumpInfo` carries this filename, its basename is the filename
without the trailing `.gz`, and its path is the filename joined to the temporary directory;
the name set in the archive header is that basename, and it is set whenever the file was
created and the command set up; and two runs started within the same UTC second get the same
filename and basename. -/
theorem dumpToFile_naming (env : Env) (h : env.timeNowUTC.inRange) :
    (dumpToFile env).2.head? =
      some (Event.osCreate (env.joinTempDir (specFilename env.timeNowUTC))
        env.createErr.isNone) ∧
    (∀ dump, (dumpToFile env).1 = .ok dump →
      dump.filename = specFilename env.timeNowUTC ∧
      dump.basename ++ ascii ".gz" = dump.filename ∧
      dump.filepath = env.joinTempDir dump.filename) ∧
    (∀ name modTime, Event.gzipSetHeader name modTime ∈ (dumpToFile env).2 →
      name ++ ascii ".gz" = specFilename env.timeNowUTC) ∧
    (env.createErr = none → env.cmdErr = none →
      ∃ name, name ++ ascii ".gz" = specFilename env.timeNowUTC ∧
        Event.gzipSetHeader name env.timeNowUTC ∈ (dumpToFile env).2) ∧
    (∀ env2 : Env, env.timeNowUTC.sameSecond env2.timeNowUTC →
      specFilename env.timeNowUTC = specFilename env2.timeNowUTC ∧
      ∀ d1 d2, (dumpToFile env).1 = .ok d1 → (dumpToFile env2).1 = .ok d2 →
        d1.filename = d2.filename ∧ d1.basename = d2.basename) := by
  have hspec := filenameAt_eq_spec env.timeNowUTC h
  obtain ⟨hhead1, hhead2, hcreate⟩ := dumpToFile_header env
  refine ⟨?_, ?_, ?_, ?_, ?_⟩
  · rw [hcreate, hspec]
  · intro dump hd
    rw [dumpToFile_ok_eq env dump hd]
    exact ⟨hspec, rfl, rfl⟩
  · intro name modTime hmem
    rw [(hhead1 name modTime hmem).1, ← hspec]
    rfl
  · intro hc hcmd
    exact ⟨basenameAt env.timeNowUTC, hspec, hhead2 hc hcmd⟩
  · intro env2 hsame
    refine ⟨?_, ?_⟩
    · obtain ⟨e1, e2, e3, e4, e5, e6, e7⟩ := hsame
      unfold specFilename
      rw [e1, e2, e3, e4, e5, e6, e7]
    · intro d1 d2 hd1 hd2
      rw [dumpToFile_ok_eq env d1 hd1, dumpToFile_ok_eq env2 d2 hd2]
      obtain ⟨hb, hf⟩ := filenameAt_sameSecond _ _ hsame
      exact ⟨hf, hb⟩

/-- Witness for C9: the run of scenario A, started on Saturday 9 March 2024 at 14:05:07 UTC,
creates `/tmp/Backup_Sat_09_Mar_2024_14-05-07_UTC.dump.gz`. -/
theorem dumpToFile_naming_witness :
    sampleTime.inRange ∧
    specFilename sampleTime = ascii "Backup_Sat_09_Mar_2024_14-05-07_UTC.dump.gz" ∧
    (dumpToFile scenarioA).2.head? =
      some (Event.osCreate (ascii "/tmp/" ++ specFilename sampleTime) true) ∧
    ∃ dump, (dumpToFile scenarioA).1 = .ok dump ∧
      dump.basename = ascii "Backup_Sat_09_Mar_2024_14-05-07_UTC.dump" :=
  ⟨by decide, by decide,
    (dumpToFile_naming scenarioA (by decide)).1,
    ⟨dumpOf scenarioA, by decide, by decide⟩⟩

/-- Claim C10. For every two start instants with calendar fields in range (years 0000 to
9999) that fall in different UTC seconds: the filenames of two returned `dumpInfo`s differ,
the files created differ in name, and the keys of the uploads of the two runs differ. -/
theorem filenames_differ_across_seconds (env1 env2 : Env)
    (h1 : env1.timeNowUTC.inRange) (h2 : env2.timeNowUTC.inRange)
    (hdiff : env1.timeNowUTC.secondOf ≠ env2.timeNowUTC.secondOf) :
    specFilename env1.timeNowUTC ≠ specFilename env2.timeNowUTC ∧
    (∀ d1 d2, (dumpToFile env1).1 = .ok d1 → (dumpToFile env2).1 = .ok d2 →
      d1.filename ≠ d2.filename) ∧
    (∀ ct1 key1 body1 part1 ok1 ct2 key2 body2 part2 ok2,
      Event.s3Upload ct1 key1 body1 part1 ok1 ∈ (RunBackup env1).2 →
      Event.s3Upload ct2 key2 body2 part2 ok2 ∈ (RunBackup env2).2 →
      key1 ≠ key2) := by
  have hne : specFilename env1.timeNowUTC ≠ specFilename env2.timeNowUTC :=
    fun heq => hdiff (specFilename_inj _ _ h1 h2 heq)
  have hs1 := filenameAt_eq_spec _ h1
  have hs2 := filenameAt_eq_spec _ h2
  refine ⟨hne, ?_, ?_⟩
  · intro d1 d2 hd1 hd2 heq
    rw [dumpToFile_ok_eq env1 d1 hd1, dumpToFile_ok_eq env2 d2 hd2] at heq
    apply hne
    rw [← hs1, ← hs2]
    exact heq
  · intro ct1 key1 body1 part1 ok1 ct2 key2 body2 part2 ok2 hm1 hm2 heq
    have e1 := RunBackup_upload_event env1 _ hm1 rfl
    have e2 := RunBackup_upload_event env2 _ hm2 rfl
    simp only [Event.s3Upload.injEq] at e1 e2
    apply hne
    rw [← hs1, ← hs2, ← e1.2.1, ← e2.2.1]
    exact heq

/-- Witness for C10: two runs one second apart upload under different keys, and two runs in
the same second collide. -/
theorem filenames_differ_across_seconds_witness :
    specFilename sampleTime ≠ specFilename sampleTimeNext ∧
    specFilename sampleTimeNext = ascii "Backup_Sat_09_Mar_2024_14-05-08_UTC.dump.gz" ∧
    specFilename sampleTime = specFilename sampleTimeLater :=
  ⟨(filenames_differ_across_seconds scenarioA { scenarioA with timeNowUTC := sampleTimeNext }
      (by decide) (by decide) (by decide)).1,
    by decide, by decide⟩

end PgBackup
